import Mathlib

/-!
# SH probe network

A verification development for `Utility/SHProbeEncoder/SHProbeNetwork.h`: the
records of the probe network, the undirected edge key of the mesh adjacency
graph, and the face adjacency setter are embedded from the header.  The member
functions whose bodies are not part of the header are modelled from the written
specification and are marked as such.
-/

namespace SHProbeNetwork

/-! ## Machine types -/

/-!
A `U32` is carried as a natural number (`Nat`); well-formed values are below `2^32`.
An `int` is carried as an integer (`Int`); well-formed values are in `[-2^31, 2^31)`.
-/

/-- Conversion of an `int` to `U32`: reduction modulo `2^32`. -/
def toU32 (i : Int) : Nat := (i % 4294967296).toNat

/-- Conversion of a `U32` to `int`: values from `2^31` upwards wrap to the negatives. -/
def toInt (u : Nat) : Int := if u < 2147483648 then (u : Int) else (u : Int) - 4294967296

/-- An IEEE-754 single, carried by its bit pattern only: no arithmetic on it is modelled. -/
structure float where
  bits : Nat
deriving DecidableEq, Repr

/-- An IEEE-754 double, carried by its bit pattern only: no arithmetic on it is modelled. -/
structure double where
  bits : Nat
deriving DecidableEq, Repr

/-- Modelled from the spec: the declaration of `float3` is not part of the header; it is the
three-scalar vector (the spec counts 9 `float3` coefficients as 27 scalars). -/
structure float3 where
  x : float
  y : float
  z : float
deriving DecidableEq, Repr

/-- The scalars of a `float3`. -/
def float3.scalars (v : float3) : List float := [v.x, v.y, v.z]

/-- A pointer: null, or the index of the pointee in the array it points into. -/
abbrev Ptr := Option Nat

/-! ## Constants -/

/-- Only keep the 4 most significant neighbors. -/
def MAX_PROBE_NEIGHBORS : Nat := 4

/-- Update a maximum of 32 probes per frame. -/
def MAX_PROBE_UPDATES_PER_FRAME : Nat := 32

/-! ## Build time structures -/

/-- The record `ProbeInfluence`. -/
structure ProbeInfluence where
  ProbeID : Nat
  Influence : double
deriving DecidableEq, Repr

/-- The record `MeshWithAdjacency::Primitive::Face`.  `pAdjacent` points into the face array
of the primitive; `pProbeInfluence` is carried by its pointee (`none` is the null pointer). -/
structure Face where
  V : Fin 3 → Nat
  P : float3
  N : float3
  pAdjacent : Fin 3 → Ptr
  pProbeInfluence : Option ProbeInfluence
  LastVisitIndex : Nat

/-- The end of the edge that starts at `EdgeIndex`: `(EdgeIndex+1)%3`. -/
def nextEdge (EdgeIndex : Fin 3) : Fin 3 := ⟨(EdgeIndex.val + 1) % 3, Nat.mod_lt _ (by decide)⟩

/-- What a call of `SetAdjacency` leaves: the face, and whether
`ASSERT( false, "Failed to retrieve adjacent edge!" )` was reached. -/
structure SetAdjacencyResult where
  face : Face
  assertReached : Bool

/-- The loop of `Face::SetAdjacency` over the edge indices still to try.  The `int` arguments are
compared with the `U32` vertex indices after the usual conversion to unsigned. -/
def Face.SetAdjacencyLoop (f : Face) (V0 V1 : Int) (AdjacentFace : Ptr) :
    List (Fin 3) → SetAdjacencyResult
  | [] => ⟨f, true⟩
  | EdgeIndex :: rest =>
    if f.V EdgeIndex = toU32 V0 ∧ f.V (nextEdge EdgeIndex) = toU32 V1 then
      ⟨{ f with pAdjacent := Function.update f.pAdjacent EdgeIndex AdjacentFace }, false⟩
    else
      Face.SetAdjacencyLoop f V0 V1 AdjacentFace rest

/-- `Face::SetAdjacency( int _V0, int _V1, Face* _AdjacentFace )`. -/
def Face.SetAdjacency (f : Face) (V0 V1 : Int) (AdjacentFace : Ptr) : SetAdjacencyResult :=
  Face.SetAdjacencyLoop f V0 V1 AdjacentFace [0, 1, 2]

/-- The three vertex indices of a face are `U32` values. -/
def Face.InRange (f : Face) : Prop := ∀ j : Fin 3, f.V j < 4294967296

/-- The three vertex indices of a face are pairwise distinct. -/
def Face.Distinct (f : Face) : Prop := f.V 0 ≠ f.V 1 ∧ f.V 1 ≠ f.V 2 ∧ f.V 0 ≠ f.V 2

/-- The record `MeshWithAdjacency::Primitive::EdgeKey`. -/
structure EdgeKey where
  V0 : Int
  V1 : Int
deriving DecidableEq, Repr

/-- `EdgeKey::GetHash`: the `int` value `V0 ^ V1`, returned as a `U32`. -/
def EdgeKey.GetHash (key : EdgeKey) : Nat := toU32 (Int.xor key.V0 key.V1)

/-- `EdgeKey::Compare`. -/
def EdgeKey.Compare (key0 key1 : EdgeKey) : Int :=
  let k00 := if key0.V0 < key0.V1 then key0.V0 else key0.V1
  let k01 := if key0.V0 < key0.V1 then key0.V1 else key0.V0
  let k10 := if key1.V0 < key1.V1 then key1.V0 else key1.V1
  let k11 := if key1.V0 < key1.V1 then key1.V1 else key1.V0
  if k00 = k10 ∧ k01 = k11 then 0 else 1

/-- A face with vertex indices 10, 20, 30 and no adjacency yet. -/
def exampleFace : Face :=
  { V := ![10, 20, 30], P := ⟨⟨0⟩, ⟨0⟩, ⟨0⟩⟩, N := ⟨⟨0⟩, ⟨0⟩, ⟨0⟩⟩,
    pAdjacent := ![none, none, none], pProbeInfluence := none, LastVisitIndex := 0 }

/-! ## The static probe record -/

/-- The record `SHProbe::Sample`: a generic reflective surface. -/
structure SHProbe.Sample where
  Position : float3
  Normal : float3
  Tangent : float3
  BiTangent : float3
  Radius : float
  Albedo : float3
  F0 : float3
  SHFactor : float

/-- The record `SHProbe::EmissiveSurface`. -/
structure SHProbe.EmissiveSurface where
  Position : float3
  Normal : float3
  Tangent : float3
  BiTangent : float3
  pEmissiveMaterial : Ptr
  pSHEmissive : Fin 9 → float

/-- The record `SHProbe::NeighborProbeInfos`: one neighbor link. -/
structure SHProbe.NeighborProbeInfos where
  ProbeID : Nat
  Distance : float
  SolidAngle : float
  Direction : float3
  SH : Fin 9 → float

/-- The record `SHProbe`.  The constants `SHProbeEncoder::PROBE_SAMPLES_COUNT` and
`SHProbeEncoder::MAX_PROBE_EMISSIVE_SURFACES` are declared outside the header and are
parameters here.  A C array of `n` entries is a function on `Fin n`. -/
structure SHProbe (PROBE_SAMPLES_COUNT MAX_PROBE_EMISSIVE_SURFACES : Nat) where
  ProbeID : Nat
  pSceneProbe : Ptr
  pSHOcclusion : Fin 9 → float
  pSHStaticLighting : Fin 9 → float3
  MeanDistance : float
  MeanHarmonicDistance : float
  MinDistance : float
  MaxDistance : float
  BBoxMin : float3
  BBoxMax : float3
  pSamples : Fin PROBE_SAMPLES_COUNT → SHProbe.Sample
  EmissiveSurfacesCount : Nat
  pEmissiveSurfaces : Fin MAX_PROBE_EMISSIVE_SURFACES → SHProbe.EmissiveSurface
  NearestProbeDistance : float
  FarthestProbeDistance : float
  pNeighborProbeInfos : Fin MAX_PROBE_NEIGHBORS → SHProbe.NeighborProbeInfos

/-- The neighbor links recorded for a probe: the entries of `pNeighborProbeInfos`, in order. -/
def SHProbe.neighborLinks {S E : Nat} (p : SHProbe S E) : List SHProbe.NeighborProbeInfos :=
  List.ofFn p.pNeighborProbeInfos

/-! ## The runtime configuration record -/

/-- The record `DynamicUpdateParms`. -/
structure DynamicUpdateParms where
  MaxProbeUpdatesPerFrame : Nat
  AmbientSkySH : Fin 9 → float3
  BounceFactorSun : float3
  BounceFactorSky : float3
  BounceFactorDynamic : float3
  BounceFactorStatic : float3
  BounceFactorEmissive : float3
  BounceFactorNeighbors : float3

/-- The coefficients of the ambient sky SH, in order. -/
def DynamicUpdateParms.ambientSkyCoefficients (p : DynamicUpdateParms) : List float3 :=
  List.ofFn p.AmbientSkySH

/-- The bounce-factor weights of the record: its `BounceFactor...` fields, in declaration
order. -/
def DynamicUpdateParms.bounceFactors (p : DynamicUpdateParms) : List float3 :=
  [p.BounceFactorSun, p.BounceFactorSky, p.BounceFactorDynamic, p.BounceFactorStatic,
    p.BounceFactorEmissive, p.BounceFactorNeighbors]

/-- The parts of the record: the budget, the ambient sky SH and the bounce factors. -/
def DynamicUpdateParms.parts (p : DynamicUpdateParms) : Nat × List float3 × List float3 :=
  (p.MaxProbeUpdatesPerFrame, p.ambientSkyCoefficients, p.bounceFactors)

/-- A configuration with the default budget and every coefficient and weight zero. -/
def exampleParms : DynamicUpdateParms :=
  { MaxProbeUpdatesPerFrame := MAX_PROBE_UPDATES_PER_FRAME,
    AmbientSkySH := fun _ => ⟨⟨0⟩, ⟨0⟩, ⟨0⟩⟩,
    BounceFactorSun := ⟨⟨0⟩, ⟨0⟩, ⟨0⟩⟩, BounceFactorSky := ⟨⟨0⟩, ⟨0⟩, ⟨0⟩⟩,
    BounceFactorDynamic := ⟨⟨0⟩, ⟨0⟩, ⟨0⟩⟩, BounceFactorStatic := ⟨⟨0⟩, ⟨0⟩, ⟨0⟩⟩,
    BounceFactorEmissive := ⟨⟨0⟩, ⟨0⟩, ⟨0⟩⟩, BounceFactorNeighbors := ⟨⟨0⟩, ⟨0⟩, ⟨0⟩⟩ }

/-! ## The probe network -/

/-- The zero vector. -/
def float3.zero : float3 := ⟨⟨0⟩, ⟨0⟩, ⟨0⟩⟩

/-- A zero-filled `SHProbe`: the content of a freshly reserved entry of the array of probes. -/
def SHProbe.zero {S E : Nat} : SHProbe S E :=
  { ProbeID := 0, pSceneProbe := none,
    pSHOcclusion := fun _ => ⟨0⟩, pSHStaticLighting := fun _ => float3.zero,
    MeanDistance := ⟨0⟩, MeanHarmonicDistance := ⟨0⟩, MinDistance := ⟨0⟩, MaxDistance := ⟨0⟩,
    BBoxMin := float3.zero, BBoxMax := float3.zero,
    pSamples := fun _ => ⟨float3.zero, float3.zero, float3.zero, float3.zero, ⟨0⟩,
      float3.zero, float3.zero, ⟨0⟩⟩,
    EmissiveSurfacesCount := 0,
    pEmissiveSurfaces := fun _ => ⟨float3.zero, float3.zero, float3.zero, float3.zero, none,
      fun _ => ⟨0⟩⟩,
    NearestProbeDistance := ⟨0⟩, FarthestProbeDistance := ⟨0⟩,
    pNeighborProbeInfos := fun _ => ⟨0, ⟨0⟩, ⟨0⟩, float3.zero, fun _ => ⟨0⟩⟩ }

end SHProbeNetwork

/-- The fields of the class `SHProbeNetwork` that hold the probes, the spatial index and the
update cursor (the device, the materials and the GPU buffers are left out).  `m_pProbes` is the
reserved array of probes; `m_ProbeOctree` is carried as the list of the probes inserted in the
octree, each by its index in `m_pProbes`. -/
structure SHProbeNetwork (S E : Nat) where
  m_ErrorCode : Nat
  m_ProbesCount : Nat
  m_MaxProbesCount : Nat
  m_pProbes : List (SHProbeNetwork.SHProbe S E)
  m_ProbeOctree : List Nat
  m_ProbeUpdateIndex : Int

namespace SHProbeNetwork

/-- The network that the constructor leaves: no probe, no capacity, cursor at 0. -/
def empty {S E : Nat} : SHProbeNetwork S E :=
  { m_ErrorCode := 0, m_ProbesCount := 0, m_MaxProbesCount := 0, m_pProbes := [],
    m_ProbeOctree := [], m_ProbeUpdateIndex := 0 }

/-- `GetProbesCount`. -/
def GetProbesCount {S E : Nat} (net : SHProbeNetwork S E) : Nat := net.m_ProbesCount

/-- Modelled from the spec: the body of `PreAllocateProbes` is not part of the header.  The spec
has it reserve capacity for the given number of probes, before any probe is added. -/
def PreAllocateProbes {S E : Nat} (net : SHProbeNetwork S E) (ProbesCount : Nat) :
    SHProbeNetwork S E :=
  { net with
    m_ProbesCount := 0
    m_MaxProbesCount := ProbesCount
    m_pProbes := List.replicate ProbesCount SHProbe.zero
    m_ProbeOctree := [] }

/-- What a call of `AddProbe` leaves: the network, and whether the call failed because the
reserved capacity is exceeded. -/
structure AddProbeResult (S E : Nat) where
  net : SHProbeNetwork S E
  capacityExceeded : Bool

/-- Modelled from the spec: the body of `AddProbe` is not part of the header.  The spec has it
assign the next dense ID to the probe, record the probe of the scene and append the probe to the
spatial index; exceeding the reserved capacity is an explicit failure that changes nothing. -/
def AddProbe {S E : Nat} (net : SHProbeNetwork S E) (Probe : Nat) : AddProbeResult S E :=
  if net.m_ProbesCount < net.m_MaxProbesCount then
    ⟨{ net with
        m_pProbes := net.m_pProbes.set net.m_ProbesCount
          { net.m_pProbes.getD net.m_ProbesCount SHProbe.zero with
            ProbeID := net.m_ProbesCount
            pSceneProbe := some Probe }
        m_ProbesCount := net.m_ProbesCount + 1
        m_ProbeOctree := net.m_ProbeOctree ++ [net.m_ProbesCount] }, false⟩
  else
    ⟨net, true⟩

/-- A sequence of `AddProbe` calls, one per probe of the scene, that stops at the first call
that fails. -/
def AddProbes {S E : Nat} (net : SHProbeNetwork S E) : List Nat → AddProbeResult S E
  | [] => ⟨net, false⟩
  | Probe :: rest =>
    if (net.AddProbe Probe).capacityExceeded then net.AddProbe Probe
    else AddProbes (net.AddProbe Probe).net rest

/-- The invariant of the probe array and of the spatial index: the count is within the reserved
capacity, the array has the reserved size, the octree holds exactly the probes added so far, and
the ID of a probe is its index in the array. -/
def Valid {S E : Nat} (net : SHProbeNetwork S E) : Prop :=
  net.m_ProbesCount ≤ net.m_MaxProbesCount ∧
  net.m_pProbes.length = net.m_MaxProbesCount ∧
  net.m_ProbeOctree = List.range net.m_ProbesCount ∧
  ∀ i, i < net.m_ProbesCount → ∃ p, net.m_pProbes[i]? = some p ∧ p.ProbeID = i

/-- The outcome of `GetNearestProbe`: the ID of the probe found, or the signal that the network
has no probe. -/
inductive NearestProbe where
  | found (ProbeID : Nat)
  | noProbesAvailable
deriving DecidableEq, Repr

/-- The brute-force search for the nearest probe among the given probe IDs: the best candidate
so far is replaced by a strictly closer one, so that ties go to the probe met first. -/
def nearestLoop (distance : float3 → Nat → ℚ) (Position : float3) :
    List Nat → Option (Nat × ℚ) → Option (Nat × ℚ)
  | [], best => best
  | ProbeID :: rest, none =>
    nearestLoop distance Position rest (some (ProbeID, distance Position ProbeID))
  | ProbeID :: rest, some best =>
    if distance Position ProbeID < best.2 then
      nearestLoop distance Position rest (some (ProbeID, distance Position ProbeID))
    else
      nearestLoop distance Position rest (some best)

/-- Modelled from the spec: the body of `GetNearestProbe` and the class `Octree` are not part of
the header.  The spec has the query return the probe nearest to the position whenever the network
is not empty, and signal "no probes available" when it is empty.  The header declares the result
as a `U32` and the spec does not say how the signal is encoded, so the outcome is kept as a case
of its own.  The distance from a position to the probe with a given ID is numeric and external:
it is the parameter `distance`. -/
def GetNearestProbe {S E : Nat} (distance : float3 → Nat → ℚ) (net : SHProbeNetwork S E)
    (wsPosition : float3) : NearestProbe :=
  match nearestLoop distance wsPosition net.m_ProbeOctree none with
  | none => NearestProbe.noProbesAvailable
  | some best => NearestProbe.found best.1

/-- What a call of `UpdateDynamicProbes` leaves: the network, and the IDs of the probes selected
for update in the frame, in order. -/
structure UpdateResult (S E : Nat) where
  net : SHProbeNetwork S E
  selected : List Nat

/-- Modelled from the spec: the body of `UpdateDynamicProbes` is not part of the header.  The spec
has each frame select up to `MaxProbeUpdatesPerFrame` probes, round-robin over the probe ID from
the persisted cursor.  The class keeps no state per probe: its only scheduling state is the cursor
`m_ProbeUpdateIndex`, so every probe is due for update on every frame. -/
def UpdateDynamicProbes {S E : Nat} (net : SHProbeNetwork S E) (Parms : DynamicUpdateParms) :
    UpdateResult S E :=
  if net.m_ProbesCount = 0 then
    ⟨net, []⟩
  else
    ⟨{ net with
        m_ProbeUpdateIndex :=
          (net.m_ProbeUpdateIndex +
            (min Parms.MaxProbeUpdatesPerFrame net.m_ProbesCount : Nat)) % net.m_ProbesCount },
      (List.range (min Parms.MaxProbeUpdatesPerFrame net.m_ProbesCount)).map fun k =>
        ((net.m_ProbeUpdateIndex + (k : Nat)) % net.m_ProbesCount).toNat⟩

/-- The network after the given number of consecutive frames, each one call of
`UpdateDynamicProbes` with the same parameters and nothing else in between. -/
def afterFrames {S E : Nat} (net : SHProbeNetwork S E) (Parms : DynamicUpdateParms) :
    Nat → SHProbeNetwork S E
  | 0 => net
  | n + 1 => (afterFrames net Parms n).UpdateDynamicProbes Parms |>.net

/-- The probes selected in frame number `j` (from 0) of a run of consecutive frames. -/
def selectedInFrame {S E : Nat} (net : SHProbeNetwork S E) (Parms : DynamicUpdateParms)
    (j : Nat) : List Nat :=
  ((afterFrames net Parms j).UpdateDynamicProbes Parms).selected

/-- The window of the fairness property: `ceil(ProbesCount / MaxProbeUpdatesPerFrame)`. -/
def fairnessWindow (ProbesCount MaxProbeUpdatesPerFrame : Nat) : Nat :=
  (ProbesCount + MaxProbeUpdatesPerFrame - 1) / MaxProbeUpdatesPerFrame

/-- The networks that the operations build, starting from the network of the constructor. -/
inductive Reachable {S E : Nat} : SHProbeNetwork S E → Prop where
  | empty : Reachable empty
  | PreAllocateProbes (net : SHProbeNetwork S E) (ProbesCount : Nat) :
      Reachable net → Reachable (net.PreAllocateProbes ProbesCount)
  | AddProbe (net : SHProbeNetwork S E) (Probe : Nat) :
      Reachable net → Reachable (net.AddProbe Probe).net
  | UpdateDynamicProbes (net : SHProbeNetwork S E) (Parms : DynamicUpdateParms) :
      Reachable net → Reachable (net.UpdateDynamicProbes Parms).net

/-! ## The mesh adjacency graph and the propagation of probe influences -/

/-- The fields of the class `MeshWithAdjacency::Primitive`; `m_FacesCount` is the length of
`m_pFaces`. -/
structure Primitive where
  m_pFaces : List Face
  m_VerticesCount : Nat
  m_pVerticesProbeInfluence : List (Option ProbeInfluence)

/-- The number of faces of the primitive. -/
def Primitive.m_FacesCount (prim : Primitive) : Nat := prim.m_pFaces.length

/-- The edge key of the edge of a face that starts at `V[EdgeIndex]`. -/
def Face.edgeKey (f : Face) (EdgeIndex : Fin 3) : EdgeKey :=
  ⟨toInt (f.V EdgeIndex), toInt (f.V (nextEdge EdgeIndex))⟩

/-- The faces across the three edges of a face, in edge order, null pointers left out. -/
def Face.adjacentFaces (f : Face) : List Nat :=
  ([0, 1, 2] : List (Fin 3)).filterMap f.pAdjacent

/-- The (face, edge) pairs, from face number `FaceIndex` on, whose edge has the given key. -/
def edgeUsesFrom (key : EdgeKey) : Nat → List Face → List (Nat × Fin 3)
  | _, [] => []
  | FaceIndex, f :: rest =>
    (([0, 1, 2] : List (Fin 3)).filter fun e => EdgeKey.Compare (f.edgeKey e) key = 0).map
      (fun e => (FaceIndex, e)) ++ edgeUsesFrom key (FaceIndex + 1) rest

/-- The (face, edge) pairs of the primitive whose edge has the given undirected key. -/
def Primitive.edgeUses (prim : Primitive) (key : EdgeKey) : List (Nat × Fin 3) :=
  edgeUsesFrom key 0 prim.m_pFaces

/-- The manifold condition at one edge of one face: a boundary edge (null adjacency pointer) is
the edge of this face only; any other edge has exactly 2 incident faces, this face and the face
that the adjacency pointer names. -/
def Primitive.manifoldAt (prim : Primitive) (FaceIndex : Nat) (f : Face) (e : Fin 3) : Bool :=
  match f.pAdjacent e with
  | none => prim.edgeUses (f.edgeKey e) == [(FaceIndex, e)]
  | some Adjacent =>
    Adjacent != FaceIndex && (prim.edgeUses (f.edgeKey e)).length == 2 &&
      (prim.edgeUses (f.edgeKey e)).any fun u => u.1 == Adjacent

/-- The manifold condition at every edge of the faces from face number `FaceIndex` on. -/
def manifoldFrom (prim : Primitive) : Nat → List Face → Bool
  | _, [] => true
  | FaceIndex, f :: rest =>
    (([0, 1, 2] : List (Fin 3)).all fun e => prim.manifoldAt FaceIndex f e) &&
      manifoldFrom prim (FaceIndex + 1) rest

/-- Manifold topology: a manifold edge has exactly 2 incident faces, and boundary edges leave the
adjacency pointer null. -/
def Primitive.Manifold (prim : Primitive) : Prop := manifoldFrom prim 0 prim.m_pFaces = true

/-- Modelled from the spec: the acceptance test of the propagation, whose code is not part of
the header.  A face accepts a candidate probe influence if it has none yet, or if the candidate
is closer (distance from the face center to the probe) than its current owner, ties broken by
the lower probe ID.  The distance is numeric and external: it is the parameter `distance`. -/
def Face.Accepts (distance : float3 → Nat → ℚ) (f : Face) (candidate : ProbeInfluence) : Bool :=
  match f.pProbeInfluence with
  | none => true
  | some owner =>
    decide (distance f.P candidate.ProbeID < distance f.P owner.ProbeID) ||
      (decide (distance f.P candidate.ProbeID = distance f.P owner.ProbeID) &&
        decide (candidate.ProbeID < owner.ProbeID))

/-- The number of faces that the pass of the given index has not visited yet. -/
def unvisited (PassIndex : Nat) (faces : List Face) : Nat :=
  faces.countP fun f => decide (f.LastVisitIndex < PassIndex)

set_option linter.unusedVariables false in
/-- Modelled from the spec: the body of `Face::RecursePropagateProbeInfluences` is not part of the
header.  The spec has a face update proceed only if `LastVisitIndex < PassIndex`; the visited face
takes the pass index as its visit marker, and if it accepts the candidate it takes the candidate
as its probe influence and recurses into its (at most 3) adjacent faces with the same pass index.
The calls still to make are kept in `pending`, in the order of the recursion; the flag tells
whether some face accepted the candidate. -/
def Face.RecursePropagateProbeInfluences (distance : float3 → Nat → ℚ) (PassIndex : Nat)
    (candidate : ProbeInfluence) (faces : List Face) (pending : List Nat) (modified : Bool) :
    List Face × Bool :=
  match pending with
  | [] => (faces, modified)
  | FaceIndex :: rest =>
    match hf : faces[FaceIndex]? with
    | none =>
      Face.RecursePropagateProbeInfluences distance PassIndex candidate faces rest modified
    | some f =>
      if hv : f.LastVisitIndex < PassIndex then
        if f.Accepts distance candidate then
          Face.RecursePropagateProbeInfluences distance PassIndex candidate
            (faces.set FaceIndex
              { f with LastVisitIndex := PassIndex, pProbeInfluence := some candidate })
            (f.adjacentFaces ++ rest) true
        else
          Face.RecursePropagateProbeInfluences distance PassIndex candidate
            (faces.set FaceIndex { f with LastVisitIndex := PassIndex }) rest modified
      else
        Face.RecursePropagateProbeInfluences distance PassIndex candidate faces rest modified
termination_by (unvisited PassIndex faces, pending.length)
decreasing_by
  all_goals simp_wf
  · exact Prod.Lex.right _ (Nat.lt_succ_self _)
  · apply Prod.Lex.left
    obtain ⟨hlt, hget⟩ := List.getElem?_eq_some_iff.1 hf
    have hle := List.boole_getElem_le_countP (fun f => decide (f.LastVisitIndex < PassIndex))
      faces _ hlt
    simp only [unvisited, List.countP_set _ _ _ _ hlt, hget, hv, decide_True, if_true,
      Nat.lt_irrefl, decide_False] at hle ⊢
    simp only [Bool.false_eq_true, if_false]
    omega
  · apply Prod.Lex.left
    obtain ⟨hlt, hget⟩ := List.getElem?_eq_some_iff.1 hf
    have hle := List.boole_getElem_le_countP (fun f => decide (f.LastVisitIndex < PassIndex))
      faces _ hlt
    simp only [unvisited, List.countP_set _ _ _ _ hlt, hget, hv, decide_True, if_true,
      Nat.lt_irrefl, decide_False] at hle ⊢
    simp only [Bool.false_eq_true, if_false]
    omega
  · exact Prod.Lex.right _ (Nat.lt_succ_self _)

/-- The part of a propagation pass that is driven by one face: a face that owns a probe influence
is a seed and offers its influence to its adjacent faces; a face without influence offers
nothing. -/
def propagateFromFace (distance : float3 → Nat → ℚ) (PassIndex : Nat) (st : List Face × Bool)
    (FaceIndex : Nat) : List Face × Bool :=
  match st.1[FaceIndex]? with
  | none => st
  | some f =>
    match f.pProbeInfluence with
    | none => st
    | some influence =>
      Face.RecursePropagateProbeInfluences distance PassIndex influence st.1 f.adjacentFaces st.2

/-- Modelled from the spec: the body of `Primitive::PropagateProbeInfluences` is not part of the
header.  The spec has one pass, of a given pass index, driven per face: each face that owns a
probe influence is a seed and offers its influence to its adjacent faces.  The result is the
primitive after the pass and whether some face took a new influence. -/
def Primitive.PropagateProbeInfluences (distance : float3 → Nat → ℚ) (PassIndex : Nat)
    (prim : Primitive) : Primitive × Bool :=
  let r := (List.range prim.m_pFaces.length).foldl (propagateFromFace distance PassIndex)
    (prim.m_pFaces, false)
  ({ prim with m_pFaces := r.1 }, r.2)

/-- A sequence of propagation passes, one per pass index of the list. -/
def Primitive.PropagationPasses (distance : float3 → Nat → ℚ) (prim : Primitive) :
    List Nat → Primitive
  | [] => prim
  | PassIndex :: rest =>
    Primitive.PropagationPasses distance (prim.PropagateProbeInfluences distance PassIndex).1 rest

/-- Modelled from the spec: the body of `Primitive::AssignNearestProbe` is not part of the header.
The spec has it assign, to every face left unclaimed, the nearest probe, found by brute-force
distance from the face center to every probe; the local-space probe positions enter through the
parameter `distance`.  The influence weight stored with the probe ID is the parameter `weight` of
the distance (the spec leaves the weighting open). -/
def Primitive.AssignNearestProbe (distance : float3 → Nat → ℚ) (weight : ℚ → double)
    (ProbesCount : Nat) (prim : Primitive) : Primitive :=
  { prim with
    m_pFaces := prim.m_pFaces.map fun f =>
      match f.pProbeInfluence with
      | some _ => f
      | none =>
        match nearestLoop distance f.P (List.range ProbesCount) none with
        | none => f
        | some best => { f with pProbeInfluence := some ⟨best.1, weight best.2⟩ } }

/-- Face number `FaceIndex` of the list exists and owns a probe influence. -/
def Owned (faces : List Face) (FaceIndex : Nat) : Prop :=
  ∃ f, faces[FaceIndex]? = some f ∧ f.pProbeInfluence ≠ none

/-- Face number `FaceIndex` of the list exists and an adjacency pointer of it names face number
`Adjacent`. -/
def AdjacentTo (faces : List Face) (FaceIndex Adjacent : Nat) : Prop :=
  ∃ f, faces[FaceIndex]? = some f ∧ Adjacent ∈ f.adjacentFaces

/-- Face number `Target` is reached from face number `Source` by following adjacency pointers
(zero or more of them). -/
def Connected (faces : List Face) (Source Target : Nat) : Prop :=
  Relation.ReflTransGen (AdjacentTo faces) Source Target

/-- The second list has the faces of the first, with the adjacency pointers they had, and every
face that owned a probe influence still owns one. -/
def Keeps (faces result : List Face) : Prop :=
  result.length = faces.length ∧
  ∀ (i : Nat) (f : Face), faces[i]? = some f →
    ∃ g : Face, result[i]? = some g ∧ g.pAdjacent = f.pAdjacent ∧
      (f.pProbeInfluence ≠ none → g.pProbeInfluence ≠ none)

/-- Every face that carries the visit marker of the pass (or a later one) owns a probe
influence. -/
def VisitedOwned (PassIndex : Nat) (faces : List Face) : Prop :=
  ∀ (i : Nat) (f : Face), faces[i]? = some f → PassIndex ≤ f.LastVisitIndex →
    f.pProbeInfluence ≠ none

/-- The invariant of a propagation pass, between two faces of the drive: the faces are kept,
every visited face owns an influence, and every owner that the drive has processed, or that took
its first influence during the pass, has passed an influence on to all its adjacent faces. -/
def FloodInvariant (PassIndex : Nat) (initial : List Face) (processed : Nat → Prop)
    (faces : List Face) : Prop :=
  Keeps initial faces ∧ VisitedOwned PassIndex faces ∧
  ∀ i, Owned faces i → (processed i ∨ ¬ Owned initial i) →
    ∀ a, AdjacentTo initial i a → a < initial.length → Owned faces a

/-- The quad of the spec: two faces over the vertices 0, 1, 2, 3 that share the edge (0, 2);
the first face is marked with probe 0. -/
def exampleQuad : Primitive :=
  { m_pFaces :=
      [{ V := ![0, 1, 2], P := float3.zero, N := float3.zero,
         pAdjacent := ![none, none, some 1], pProbeInfluence := some ⟨0, ⟨0⟩⟩,
         LastVisitIndex := 0 },
       { V := ![0, 2, 3], P := float3.zero, N := float3.zero,
         pAdjacent := ![some 0, none, none], pProbeInfluence := none,
         LastVisitIndex := 0 }],
    m_VerticesCount := 4,
    m_pVerticesProbeInfluence := [none, none, none, none] }

/-- A network of five probes, built by `PreAllocateProbes(5)` and five calls of `AddProbe`. -/
def exampleNetwork : SHProbeNetwork 1 1 :=
  ((empty.PreAllocateProbes 5).AddProbes [100, 101, 102, 103, 104]).net

/-- A network of two probes, built by `PreAllocateProbes(2)` and two calls of `AddProbe`. -/
def exampleTwoProbes : SHProbeNetwork 1 1 :=
  (((empty.PreAllocateProbes 2).AddProbe 7).net.AddProbe 8).net

/-- A configuration with a budget of 2 probes per frame. -/
def exampleBudget : DynamicUpdateParms := { exampleParms with MaxProbeUpdatesPerFrame := 2 }

/-! # Theorems -/

/-! ## The edge key -/

theorem toU32_toInt (u : Nat) (h : u < 4294967296) : toU32 (toInt u) = u := by
  show (Int.toNat (toInt u % 4294967296) : Nat) = u
  unfold toInt
  split <;> omega

theorem intXor_comm (a b : Int) : Int.xor a b = Int.xor b a := by
  cases a <;> cases b <;> simp [Int.xor, Nat.xor_comm]

theorem EdgeKey.Compare_eq_zero_iff (k0 k1 : EdgeKey) :
    EdgeKey.Compare k0 k1 = 0 ↔
      (min k0.V0 k0.V1, max k0.V0 k0.V1) = (min k1.V0 k1.V1, max k1.V0 k1.V1) := by
  obtain ⟨a0, a1⟩ := k0
  obtain ⟨b0, b1⟩ := k1
  simp only [EdgeKey.Compare, Prod.mk.injEq]
  by_cases ha : a0 < a1 <;> by_cases hb : b0 < b1 <;>
    simp [ha, hb, min_def, max_def] <;> split_ifs <;> constructor <;> intro h <;> omega

theorem EdgeKey.Compare_zero_or_one (k0 k1 : EdgeKey) :
    EdgeKey.Compare k0 k1 = 0 ∨ EdgeKey.Compare k0 k1 = 1 := by
  unfold EdgeKey.Compare
  simp only
  split_ifs <;> simp

theorem EdgeKey.Compare_eq_zero_cases (k0 k1 : EdgeKey) (h : EdgeKey.Compare k0 k1 = 0) :
    (k0.V0 = k1.V0 ∧ k0.V1 = k1.V1) ∨ (k0.V0 = k1.V1 ∧ k0.V1 = k1.V0) := by
  rw [EdgeKey.Compare_eq_zero_iff] at h
  simp only [Prod.mk.injEq, min_def, max_def] at h
  split_ifs at h <;> omega

/-- C1: `EdgeKey::Compare` treats keys as undirected vertex pairs: it returns 0 exactly when the
(min, max) pairs of the two keys are equal and 1 exactly otherwise; a key and its reversal
compare equal; and "Compare = 0" is an equivalence relation (reflexive, symmetric, transitive). -/
theorem EdgeKey.Compare_undirected :
    (∀ a0 a1 b0 b1 : Int,
      (EdgeKey.Compare ⟨a0, a1⟩ ⟨b0, b1⟩ = 0 ↔
        (min a0 a1, max a0 a1) = (min b0 b1, max b0 b1)) ∧
      (EdgeKey.Compare ⟨a0, a1⟩ ⟨b0, b1⟩ = 1 ↔
        ¬ (min a0 a1, max a0 a1) = (min b0 b1, max b0 b1))) ∧
    (∀ a b : Int, EdgeKey.Compare ⟨a, b⟩ ⟨b, a⟩ = 0) ∧
    Equivalence (fun k0 k1 : EdgeKey => EdgeKey.Compare k0 k1 = 0) := by
  refine ⟨fun a0 a1 b0 b1 => ⟨EdgeKey.Compare_eq_zero_iff ⟨a0, a1⟩ ⟨b0, b1⟩, ?_⟩, ?_, ?_⟩
  · rw [← EdgeKey.Compare_eq_zero_iff ⟨a0, a1⟩ ⟨b0, b1⟩]
    rcases EdgeKey.Compare_zero_or_one ⟨a0, a1⟩ ⟨b0, b1⟩ with h | h <;> simp [h]
  · intro a b
    rw [EdgeKey.Compare_eq_zero_iff]
    simp [min_comm, max_comm]
  · refine ⟨fun k => ?_, fun {k0 k1} h => ?_, fun {k0 k1 k2} h01 h12 => ?_⟩
    · rw [EdgeKey.Compare_eq_zero_iff]
    · rw [EdgeKey.Compare_eq_zero_iff] at h ⊢
      exact h.symm
    · rw [EdgeKey.Compare_eq_zero_iff] at h01 h12 ⊢
      exact h01.trans h12

/-- C2: `EdgeKey::GetHash` is consistent with `EdgeKey::Compare`: keys that compare equal have
the same hash; a key and its reversal have the same hash; and the hash is the 32-bit unsigned
value of `V0 xor V1`. -/
theorem EdgeKey.GetHash_consistent :
    (∀ k0 k1 : EdgeKey, EdgeKey.Compare k0 k1 = 0 → EdgeKey.GetHash k0 = EdgeKey.GetHash k1) ∧
    (∀ a b : Int, EdgeKey.GetHash ⟨a, b⟩ = EdgeKey.GetHash ⟨b, a⟩) ∧
    (∀ k : EdgeKey, EdgeKey.GetHash k < 4294967296 ∧
      ((EdgeKey.GetHash k : Nat) : Int) = Int.xor k.V0 k.V1 % 4294967296) := by
  refine ⟨fun k0 k1 h => ?_, fun a b => ?_, fun k => ?_⟩
  · rcases EdgeKey.Compare_eq_zero_cases k0 k1 h with ⟨h0, h1⟩ | ⟨h0, h1⟩
    · simp [EdgeKey.GetHash, h0, h1]
    · simp only [EdgeKey.GetHash, h0, h1]
      rw [intXor_comm]
  · simp only [EdgeKey.GetHash]
    rw [intXor_comm]
  · have hlt : @Eq Nat (EdgeKey.GetHash k) (Int.toNat (Int.xor k.V0 k.V1 % 4294967296)) := rfl
    generalize Int.xor k.V0 k.V1 = x at hlt
    constructor <;> omega

/-- The hash of the key (3, 5) and of its reversal (5, 3), which compare equal, agree. -/
theorem EdgeKey.GetHash_consistent_witness :
    EdgeKey.Compare ⟨3, 5⟩ ⟨5, 3⟩ = 0 ∧ EdgeKey.GetHash ⟨3, 5⟩ = EdgeKey.GetHash ⟨5, 3⟩ :=
  ⟨by decide, EdgeKey.GetHash_consistent.1 ⟨3, 5⟩ ⟨5, 3⟩ (by decide)⟩

/-! ## The face adjacency setter -/

theorem exampleFace_InRange : exampleFace.InRange := by
  intro j; fin_cases j <;> simp [exampleFace]

theorem exampleFace_Distinct : exampleFace.Distinct := by
  simp [Face.Distinct, exampleFace]

theorem Face.SetAdjacencyLoop_hit (f : Face) (V0 V1 : Int) (A : Ptr) (e : Fin 3)
    (rest : List (Fin 3)) (h : f.V e = toU32 V0 ∧ f.V (nextEdge e) = toU32 V1) :
    Face.SetAdjacencyLoop f V0 V1 A (e :: rest) =
      ⟨{ f with pAdjacent := Function.update f.pAdjacent e A }, false⟩ := by
  simp only [Face.SetAdjacencyLoop, if_pos h]

theorem Face.SetAdjacencyLoop_miss (f : Face) (V0 V1 : Int) (A : Ptr) (e : Fin 3)
    (rest : List (Fin 3)) (h : ¬ (f.V e = toU32 V0 ∧ f.V (nextEdge e) = toU32 V1)) :
    Face.SetAdjacencyLoop f V0 V1 A (e :: rest) = Face.SetAdjacencyLoop f V0 V1 A rest := by
  simp only [Face.SetAdjacencyLoop, if_neg h]

theorem nextEdge_zero : nextEdge 0 = 1 := rfl
theorem nextEdge_one : nextEdge 1 = 2 := rfl
theorem nextEdge_two : nextEdge 2 = 0 := rfl

/-- On the endpoints of its own edge `i`, in winding order, `SetAdjacency` stops at edge `i`. -/
theorem Face.SetAdjacency_forward (f : Face) (hr : f.InRange) (hd : f.Distinct) (i : Fin 3)
    (A : Ptr) :
    f.SetAdjacency (toInt (f.V i)) (toInt (f.V (nextEdge i))) A =
      ⟨{ f with pAdjacent := Function.update f.pAdjacent i A }, false⟩ := by
  obtain ⟨h01, h12, h02⟩ := hd
  have r0 := toU32_toInt (f.V 0) (hr 0)
  have r1 := toU32_toInt (f.V 1) (hr 1)
  have r2 := toU32_toInt (f.V 2) (hr 2)
  unfold Face.SetAdjacency
  fin_cases i
  · show Face.SetAdjacencyLoop f (toInt (f.V 0)) (toInt (f.V (nextEdge 0))) A [0, 1, 2] = _
    rw [Face.SetAdjacencyLoop_hit]
    · rfl
    · rw [nextEdge_zero, r0, r1]; exact ⟨rfl, rfl⟩
  · show Face.SetAdjacencyLoop f (toInt (f.V 1)) (toInt (f.V (nextEdge 1))) A [0, 1, 2] = _
    rw [Face.SetAdjacencyLoop_miss, Face.SetAdjacencyLoop_hit]
    · rfl
    · rw [nextEdge_one, r1, r2]; exact ⟨rfl, rfl⟩
    · rw [nextEdge_one, r1, r2]; exact fun h => h01 h.1
  · show Face.SetAdjacencyLoop f (toInt (f.V 2)) (toInt (f.V (nextEdge 2))) A [0, 1, 2] = _
    rw [Face.SetAdjacencyLoop_miss, Face.SetAdjacencyLoop_miss, Face.SetAdjacencyLoop_hit]
    · rfl
    · rw [nextEdge_two, r2, r0]; exact ⟨rfl, rfl⟩
    · rw [nextEdge_two, r2, r0]; exact fun h => h12 h.1
    · rw [nextEdge_two, r2, r0]; exact fun h => h02 h.1

/-- On the endpoints of its own edge `i` in reversed order, `SetAdjacency` matches no edge. -/
theorem Face.SetAdjacency_backward (f : Face) (hr : f.InRange) (hd : f.Distinct) (i : Fin 3)
    (A : Ptr) :
    f.SetAdjacency (toInt (f.V (nextEdge i))) (toInt (f.V i)) A = ⟨f, true⟩ := by
  obtain ⟨h01, h12, h02⟩ := hd
  have r0 := toU32_toInt (f.V 0) (hr 0)
  have r1 := toU32_toInt (f.V 1) (hr 1)
  have r2 := toU32_toInt (f.V 2) (hr 2)
  unfold Face.SetAdjacency
  fin_cases i
  · show Face.SetAdjacencyLoop f (toInt (f.V (nextEdge 0))) (toInt (f.V 0)) A [0, 1, 2] = _
    rw [Face.SetAdjacencyLoop_miss, Face.SetAdjacencyLoop_miss, Face.SetAdjacencyLoop_miss]
    · rfl
    · rw [nextEdge_zero, nextEdge_two, r0, r1]; exact fun h => h12 h.1.symm
    · rw [nextEdge_zero, nextEdge_one, r0, r1]; exact fun h => h02 h.2.symm
    · rw [nextEdge_zero, r0, r1]; exact fun h => h01 h.1
  · show Face.SetAdjacencyLoop f (toInt (f.V (nextEdge 1))) (toInt (f.V 1)) A [0, 1, 2] = _
    rw [Face.SetAdjacencyLoop_miss, Face.SetAdjacencyLoop_miss, Face.SetAdjacencyLoop_miss]
    · rfl
    · rw [nextEdge_one, nextEdge_two, r1, r2]; exact fun h => h01 h.2
    · rw [nextEdge_one, r1, r2]; exact fun h => h12 h.1
    · rw [nextEdge_one, nextEdge_zero, r1, r2]; exact fun h => h02 h.1
  · show Face.SetAdjacencyLoop f (toInt (f.V (nextEdge 2))) (toInt (f.V 2)) A [0, 1, 2] = _
    rw [Face.SetAdjacencyLoop_miss, Face.SetAdjacencyLoop_miss, Face.SetAdjacencyLoop_miss]
    · rfl
    · rw [nextEdge_two, r2, r0]; exact fun h => h02 h.1.symm
    · rw [nextEdge_two, nextEdge_one, r2, r0]; exact fun h => h01 h.1.symm
    · rw [nextEdge_two, nextEdge_zero, r2, r0]; exact fun h => h12 h.2

/-- C3: for a face with pairwise distinct (`U32`) vertex indices, every edge index `i` and every
face pointer `F`, the call `SetAdjacency(V[i], V[(i+1)%3], F)` does not reach the assertion,
leaves `pAdjacent[i] = F`, and leaves the two other `pAdjacent` entries and the fields `V`, `P`,
`N`, `pProbeInfluence` and `LastVisitIndex` unchanged. -/
theorem Face.SetAdjacency_sets_named_edge (f : Face) (hr : f.InRange) (hd : f.Distinct)
    (i : Fin 3) (F : Ptr) :
    (f.SetAdjacency (toInt (f.V i)) (toInt (f.V (nextEdge i))) F).assertReached = false ∧
    (f.SetAdjacency (toInt (f.V i)) (toInt (f.V (nextEdge i))) F).face.pAdjacent i = F ∧
    (∀ j : Fin 3, j ≠ i →
      (f.SetAdjacency (toInt (f.V i)) (toInt (f.V (nextEdge i))) F).face.pAdjacent j =
        f.pAdjacent j) ∧
    (f.SetAdjacency (toInt (f.V i)) (toInt (f.V (nextEdge i))) F).face.V = f.V ∧
    (f.SetAdjacency (toInt (f.V i)) (toInt (f.V (nextEdge i))) F).face.P = f.P ∧
    (f.SetAdjacency (toInt (f.V i)) (toInt (f.V (nextEdge i))) F).face.N = f.N ∧
    (f.SetAdjacency (toInt (f.V i)) (toInt (f.V (nextEdge i))) F).face.pProbeInfluence =
      f.pProbeInfluence ∧
    (f.SetAdjacency (toInt (f.V i)) (toInt (f.V (nextEdge i))) F).face.LastVisitIndex =
      f.LastVisitIndex := by
  rw [Face.SetAdjacency_forward f hr hd i F]
  refine ⟨rfl, ?_, ?_, rfl, rfl, rfl, rfl, rfl⟩
  · simp
  · intro j hj
    simp [Function.update_noteq hj]

/-- The statement of C3 at the face (10, 20, 30), its edge 1 and the face pointer 7. -/
theorem Face.SetAdjacency_sets_named_edge_witness :
    exampleFace.InRange ∧ exampleFace.Distinct ∧
    (exampleFace.SetAdjacency 20 30 (some 7)).assertReached = false ∧
    (exampleFace.SetAdjacency 20 30 (some 7)).face.pAdjacent 1 = some 7 :=
  ⟨exampleFace_InRange, exampleFace_Distinct,
    (Face.SetAdjacency_sets_named_edge exampleFace exampleFace_InRange exampleFace_Distinct
      1 (some 7)).1,
    (Face.SetAdjacency_sets_named_edge exampleFace exampleFace_InRange exampleFace_Distinct
      1 (some 7)).2.1⟩

/-- C10: `SetAdjacency` matches edges by direction: for a face with pairwise distinct (`U32`)
vertex indices and every edge index `i`, the call `SetAdjacency(V[(i+1)%3], V[i], F)` matches
none of the three edges, reaches the assertion and leaves the face (all three `pAdjacent`
entries included) unchanged, although the reversed endpoints form the same undirected
`EdgeKey` as the endpoints in winding order. -/
theorem Face.SetAdjacency_reversed_edge_fails (f : Face) (hr : f.InRange) (hd : f.Distinct)
    (i : Fin 3) (F : Ptr) :
    (∀ e : Fin 3, ¬ (f.V e = toU32 (toInt (f.V (nextEdge i))) ∧
      f.V (nextEdge e) = toU32 (toInt (f.V i)))) ∧
    (f.SetAdjacency (toInt (f.V (nextEdge i))) (toInt (f.V i)) F).assertReached = true ∧
    (∀ j : Fin 3,
      (f.SetAdjacency (toInt (f.V (nextEdge i))) (toInt (f.V i)) F).face.pAdjacent j =
        f.pAdjacent j) ∧
    EdgeKey.Compare ⟨toInt (f.V (nextEdge i)), toInt (f.V i)⟩
      ⟨toInt (f.V i), toInt (f.V (nextEdge i))⟩ = 0 := by
  rw [Face.SetAdjacency_backward f hr hd i F]
  refine ⟨?_, rfl, fun _ => rfl, (EdgeKey.Compare_eq_zero_iff _ _).2 ?_⟩
  · obtain ⟨h01, h12, h02⟩ := hd
    have r0 := toU32_toInt (f.V 0) (hr 0)
    have r1 := toU32_toInt (f.V 1) (hr 1)
    have r2 := toU32_toInt (f.V 2) (hr 2)
    intro e
    fin_cases i <;> fin_cases e <;>
      simp [nextEdge, r0, r1, r2] <;> omega
  · simp [min_comm, max_comm]

/-- The statement of C10 at the face (10, 20, 30) and its edge 1: the call with the endpoints
30, 20 reaches the assertion. -/
theorem Face.SetAdjacency_reversed_edge_fails_witness :
    exampleFace.InRange ∧ exampleFace.Distinct ∧
    (exampleFace.SetAdjacency 30 20 (some 7)).assertReached = true :=
  ⟨exampleFace_InRange, exampleFace_Distinct,
    (Face.SetAdjacency_reversed_edge_fails exampleFace exampleFace_InRange exampleFace_Distinct
      1 (some 7)).2.1⟩

/-! ## The records -/

/-- C4: `MAX_PROBE_NEIGHBORS` equals 4, and every `SHProbe` value keeps its neighbor links in
`pNeighborProbeInfos`, which has exactly `MAX_PROBE_NEIGHBORS` entries: no probe holds more than
4 neighbor links. -/
theorem SHProbe.at_most_four_neighbor_links {S E : Nat} (p : SHProbe S E) :
    MAX_PROBE_NEIGHBORS = 4 ∧
    p.neighborLinks.length = MAX_PROBE_NEIGHBORS ∧
    p.neighborLinks.length ≤ 4 := by
  simp [SHProbe.neighborLinks, MAX_PROBE_NEIGHBORS]

/-- C5, as stated, fails: the bounce-factor weights of `DynamicUpdateParms` are not 5 single
scalars (at the example configuration there are 6 of them, each of 3 scalars). -/
theorem DynamicUpdateParms.not_five_scalar_bounce_factors :
    ¬ (exampleParms.bounceFactors.length = 5 ∧
        ∀ w ∈ exampleParms.bounceFactors, w.scalars.length = 1) := by
  intro h
  exact absurd h.1 (by decide)

/-- C5, amended: `DynamicUpdateParms` consists of the budget `MaxProbeUpdatesPerFrame`, the
ambient sky SH with 9 coefficients, and exactly 6 bounce-factor weights (sun, sky, dynamic,
static, emissive, neighbors), each of which is a `float3` of three scalars; the record is
determined by these parts. -/
theorem DynamicUpdateParms.six_float3_bounce_factors :
    Function.Injective DynamicUpdateParms.parts ∧
    ∀ p : DynamicUpdateParms,
      p.ambientSkyCoefficients.length = 9 ∧
      p.bounceFactors.length = 6 ∧
      p.bounceFactors = [p.BounceFactorSun, p.BounceFactorSky, p.BounceFactorDynamic,
        p.BounceFactorStatic, p.BounceFactorEmissive, p.BounceFactorNeighbors] ∧
      ∀ w ∈ p.bounceFactors, w.scalars.length = 3 := by
  refine ⟨?_, fun p => ⟨by simp [DynamicUpdateParms.ambientSkyCoefficients], rfl, rfl, ?_⟩⟩
  · intro p q h
    obtain ⟨m, a, b0, b1, b2, b3, b4, b5⟩ := p
    obtain ⟨m', a', c0, c1, c2, c3, c4, c5⟩ := q
    simp only [DynamicUpdateParms.parts, DynamicUpdateParms.ambientSkyCoefficients,
      DynamicUpdateParms.bounceFactors, Prod.mk.injEq, List.cons.injEq, and_true] at h
    obtain ⟨hm, ha, h0, h1, h2, h3, h4, h5⟩ := h
    have ha2 : a = a' := List.ofFn_injective ha
    subst hm ha2 h0 h1 h2 h3 h4 h5
    rfl
  · intro w _
    rfl

/-! ## Reserving and adding probes -/

theorem Valid_PreAllocateProbes {S E : Nat} (net : SHProbeNetwork S E) (n : Nat) :
    (net.PreAllocateProbes n).Valid := by
  refine ⟨Nat.zero_le _, ?_, ?_, ?_⟩
  · simp [PreAllocateProbes]
  · simp [PreAllocateProbes]
  · intro i hi
    exact absurd hi (Nat.not_lt_zero i)

theorem AddProbe_of_full {S E : Nat} (net : SHProbeNetwork S E) (Probe : Nat)
    (h : ¬ net.m_ProbesCount < net.m_MaxProbesCount) : net.AddProbe Probe = ⟨net, true⟩ := by
  simp only [AddProbe, if_neg h]

theorem AddProbe_of_room {S E : Nat} (net : SHProbeNetwork S E) (Probe : Nat)
    (h : net.m_ProbesCount < net.m_MaxProbesCount) :
    (net.AddProbe Probe).capacityExceeded = false ∧
    (net.AddProbe Probe).net.m_ProbesCount = net.m_ProbesCount + 1 ∧
    (net.AddProbe Probe).net.m_MaxProbesCount = net.m_MaxProbesCount := by
  simp only [AddProbe, if_pos h, and_self]

theorem Valid_AddProbe {S E : Nat} (net : SHProbeNetwork S E) (Probe : Nat) (hv : net.Valid) :
    (net.AddProbe Probe).net.Valid := by
  by_cases h : net.m_ProbesCount < net.m_MaxProbesCount
  · obtain ⟨_, hlen, hoct, hid⟩ := hv
    simp only [AddProbe, if_pos h]
    refine ⟨h, ?_, ?_, ?_⟩
    · simpa using hlen
    · simp only [hoct, List.range_succ]
    · intro i hi
      by_cases hic : i = net.m_ProbesCount
      · subst hic
        simp only
        rw [List.getElem?_set_self (by omega)]
        exact ⟨_, rfl, rfl⟩
      · obtain ⟨p, hp, hpid⟩ := hid i (by simp only at hi; omega)
        refine ⟨p, ?_, hpid⟩
        simp only
        rw [List.getElem?_set_ne (Ne.symm hic)]
        exact hp
  · rw [AddProbe_of_full net Probe h]
    exact hv

theorem Valid_UpdateDynamicProbes {S E : Nat} (net : SHProbeNetwork S E)
    (Parms : DynamicUpdateParms) (hv : net.Valid) : (net.UpdateDynamicProbes Parms).net.Valid := by
  unfold UpdateDynamicProbes
  split
  · exact hv
  · exact hv

/-- Every network that the operations build satisfies the invariant. -/
theorem Reachable_Valid {S E : Nat} (net : SHProbeNetwork S E) (h : Reachable net) :
    net.Valid := by
  induction h with
  | empty => exact ⟨Nat.le_refl _, rfl, rfl, fun i hi => absurd hi (Nat.not_lt_zero i)⟩
  | PreAllocateProbes net n _ _ => exact Valid_PreAllocateProbes net n
  | AddProbe net Probe _ ih => exact Valid_AddProbe net Probe ih
  | UpdateDynamicProbes net Parms _ ih => exact Valid_UpdateDynamicProbes net Parms ih

theorem AddProbes_of_room {S E : Nat} (probes : List Nat) :
    ∀ net : SHProbeNetwork S E, net.Valid →
      net.m_ProbesCount + probes.length ≤ net.m_MaxProbesCount →
      (net.AddProbes probes).capacityExceeded = false ∧
      (net.AddProbes probes).net.m_ProbesCount = net.m_ProbesCount + probes.length ∧
      (net.AddProbes probes).net.m_MaxProbesCount = net.m_MaxProbesCount ∧
      (net.AddProbes probes).net.Valid := by
  induction probes with
  | nil =>
    intro net hv _
    exact ⟨rfl, rfl, rfl, hv⟩
  | cons Probe rest ih =>
    intro net hv hroom
    simp only [List.length_cons] at hroom
    obtain ⟨hok, hcount, hmax⟩ := AddProbe_of_room net Probe (by omega)
    have hrec := ih (net.AddProbe Probe).net (Valid_AddProbe net Probe hv)
      (by rw [hcount, hmax]; omega)
    simp only [AddProbes, hok, Bool.false_eq_true, if_false]
    refine ⟨hrec.1, ?_, ?_, hrec.2.2.2⟩
    · rw [hrec.2.1, hcount, List.length_cons]; omega
    · rw [hrec.2.2.1, hmax]

/-- C8: exceeding the reserved capacity is an explicit failure.  After `PreAllocateProbes(n)` and
`n` calls of `AddProbe`, all of which succeed and leave `n` probes with the IDs `0 .. n-1`, one
more call of `AddProbe` reports the capacity-exceeded failure and leaves the network, with its
probe count and its `n` probes and their IDs, as it was. -/
theorem AddProbe_beyond_capacity_fails {S E : Nat} (net : SHProbeNetwork S E) (n : Nat)
    (probes : List Nat) (hn : probes.length = n) (extra : Nat) :
    ((net.PreAllocateProbes n).AddProbes probes).capacityExceeded = false ∧
    ((net.PreAllocateProbes n).AddProbes probes).net.GetProbesCount = n ∧
    (((net.PreAllocateProbes n).AddProbes probes).net.AddProbe extra).capacityExceeded = true ∧
    (((net.PreAllocateProbes n).AddProbes probes).net.AddProbe extra).net =
      ((net.PreAllocateProbes n).AddProbes probes).net ∧
    (((net.PreAllocateProbes n).AddProbes probes).net.AddProbe extra).net.GetProbesCount = n ∧
    ∀ i, i < n → ∃ p,
      (((net.PreAllocateProbes n).AddProbes probes).net.AddProbe extra).net.m_pProbes[i]? =
        some p ∧ p.ProbeID = i := by
  obtain ⟨hok, hcount, hmax, hvalid⟩ := AddProbes_of_room probes (net.PreAllocateProbes n)
    (Valid_PreAllocateProbes net n) (by simp [PreAllocateProbes, hn])
  have hc : ((net.PreAllocateProbes n).AddProbes probes).net.m_ProbesCount = n := by
    rw [hcount]; simp [PreAllocateProbes, hn]
  have hm : ((net.PreAllocateProbes n).AddProbes probes).net.m_MaxProbesCount = n := by
    rw [hmax]; simp [PreAllocateProbes]
  have hfull := AddProbe_of_full ((net.PreAllocateProbes n).AddProbes probes).net extra
    (by rw [hc, hm]; exact Nat.lt_irrefl n)
  rw [hfull]
  refine ⟨hok, hc, rfl, rfl, hc, ?_⟩
  intro i hi
  exact hvalid.2.2.2 i (by rw [hc]; exact hi)

/-- The scenario of the spec: `PreAllocateProbes(10)`, ten calls of `AddProbe`, and an eleventh
call, which fails. -/
theorem AddProbe_beyond_capacity_fails_witness :
    ([1, 2, 3, 4, 5, 6, 7, 8, 9, 10] : List Nat).length = 10 ∧
    ((((empty : SHProbeNetwork 1 1).PreAllocateProbes 10).AddProbes
      [1, 2, 3, 4, 5, 6, 7, 8, 9, 10]).net.AddProbe 11).capacityExceeded = true :=
  ⟨rfl, (AddProbe_beyond_capacity_fails (empty : SHProbeNetwork 1 1) 10
    [1, 2, 3, 4, 5, 6, 7, 8, 9, 10] rfl 11).2.2.1⟩

/-! ## The nearest probe -/

theorem nearestLoop_some (distance : float3 → Nat → ℚ) (Position : float3) (ids : List Nat) :
    ∀ best : Nat × ℚ, ∃ b, nearestLoop distance Position ids (some best) = some b ∧
      (b.1 = best.1 ∨ b.1 ∈ ids) ∧ b.2 ≤ best.2 ∧ ∀ id ∈ ids, b.2 ≤ distance Position id := by
  induction ids with
  | nil =>
    intro best
    exact ⟨best, rfl, Or.inl rfl, le_refl _, fun _ h => absurd h (List.not_mem_nil _)⟩
  | cons ProbeID rest ih =>
    intro best
    by_cases h : distance Position ProbeID < best.2
    · obtain ⟨b, hb, hmem, hle, hmin⟩ := ih (ProbeID, distance Position ProbeID)
      refine ⟨b, ?_, ?_, ?_, ?_⟩
      · simp only [nearestLoop, if_pos h]
        exact hb
      · rcases hmem with h1 | h1
        · exact Or.inr (by rw [h1]; exact List.mem_cons_self _ _)
        · exact Or.inr (List.mem_cons_of_mem _ h1)
      · exact le_trans hle (le_of_lt h)
      · intro id hid
        rcases List.mem_cons.1 hid with h1 | h1
        · rw [h1]; exact hle
        · exact hmin id h1
    · obtain ⟨b, hb, hmem, hle, hmin⟩ := ih best
      refine ⟨b, ?_, ?_, hle, ?_⟩
      · simp only [nearestLoop, if_neg h]
        exact hb
      · rcases hmem with h1 | h1
        · exact Or.inl h1
        · exact Or.inr (List.mem_cons_of_mem _ h1)
      · intro id hid
        rcases List.mem_cons.1 hid with h1 | h1
        · rw [h1]; exact le_trans hle (not_lt.1 h)
        · exact hmin id h1

/-- The brute-force search over a list of probes that is not empty finds one of them, and none of
them is closer to the position than the one found. -/
theorem nearestLoop_cons (distance : float3 → Nat → ℚ) (Position : float3) (ProbeID : Nat)
    (rest : List Nat) :
    ∃ b, nearestLoop distance Position (ProbeID :: rest) none = some b ∧
      b.1 ∈ ProbeID :: rest ∧ ∀ id ∈ ProbeID :: rest, b.2 ≤ distance Position id := by
  obtain ⟨b, hb, hmem, hle, hmin⟩ :=
    nearestLoop_some distance Position rest (ProbeID, distance Position ProbeID)
  refine ⟨b, hb, ?_, ?_⟩
  · rcases hmem with h1 | h1
    · rw [h1]; exact List.mem_cons_self _ _
    · exact List.mem_cons_of_mem _ h1
  · intro id hid
    rcases List.mem_cons.1 hid with h1 | h1
    · rw [h1]; exact hle
    · exact hmin id h1

theorem GetNearestProbe_of_empty {S E : Nat} (distance : float3 → Nat → ℚ)
    (net : SHProbeNetwork S E) (hv : net.Valid) (h0 : net.m_ProbesCount = 0)
    (wsPosition : float3) :
    net.GetNearestProbe distance wsPosition = NearestProbe.noProbesAvailable := by
  have hoct : net.m_ProbeOctree = [] := by rw [hv.2.2.1, h0]; rfl
  simp only [GetNearestProbe, hoct, nearestLoop]

theorem GetNearestProbe_of_nonempty {S E : Nat} (distance : float3 → Nat → ℚ)
    (net : SHProbeNetwork S E) (hv : net.Valid) (h0 : 0 < net.m_ProbesCount)
    (wsPosition : float3) :
    ∃ id, id < net.m_ProbesCount ∧
      net.GetNearestProbe distance wsPosition = NearestProbe.found id := by
  have hoct : net.m_ProbeOctree = 0 :: (List.range net.m_ProbesCount).tail := by
    rw [hv.2.2.1]
    obtain ⟨k, hk⟩ := Nat.exists_eq_succ_of_ne_zero (Nat.pos_iff_ne_zero.1 h0)
    rw [hk, List.range_succ_eq_map]
    rfl
  obtain ⟨b, hb, hmem, _⟩ :=
    nearestLoop_cons distance wsPosition 0 (List.range net.m_ProbesCount).tail
  refine ⟨b.1, ?_, ?_⟩
  · rw [← hoct, hv.2.2.1] at hmem
    exact List.mem_range.1 hmem
  · simp only [GetNearestProbe, hoct, hb]

/-- C9: on a network with zero probes `GetNearestProbe` gives the signal "no probes available",
which is no found probe ID (in particular not probe ID 0) and differs from every result on a
network that has probes; on a network that has probes the result is a found probe ID in
`[0, ProbesCount)`.  The networks are those that the operations build. -/
theorem GetNearestProbe_empty_signal_distinct {S E : Nat} (distance : float3 → Nat → ℚ)
    (emptyNet net : SHProbeNetwork S E) (hre : Reachable emptyNet) (hr : Reachable net)
    (he : emptyNet.GetProbesCount = 0) (hne : 0 < net.GetProbesCount)
    (wsPosition wsPosition2 : float3) :
    emptyNet.GetNearestProbe distance wsPosition = NearestProbe.noProbesAvailable ∧
    (∀ id, emptyNet.GetNearestProbe distance wsPosition ≠ NearestProbe.found id) ∧
    emptyNet.GetNearestProbe distance wsPosition ≠ NearestProbe.found 0 ∧
    (∃ id, id < net.GetProbesCount ∧
      net.GetNearestProbe distance wsPosition2 = NearestProbe.found id) ∧
    emptyNet.GetNearestProbe distance wsPosition ≠
      net.GetNearestProbe distance wsPosition2 := by
  have h1 := GetNearestProbe_of_empty distance emptyNet (Reachable_Valid _ hre) he wsPosition
  obtain ⟨id, hid, h2⟩ :=
    GetNearestProbe_of_nonempty distance net (Reachable_Valid _ hr) hne wsPosition2
  rw [h1, h2]
  exact ⟨rfl, fun _ h => NearestProbe.noConfusion h, fun h => NearestProbe.noConfusion h,
    ⟨id, hid, rfl⟩, fun h => NearestProbe.noConfusion h⟩

/-- The statement of C9 at the network without probes and at a network of two probes, for a
distance that puts probe 1 nearest. -/
theorem GetNearestProbe_empty_signal_distinct_witness :
    (empty : SHProbeNetwork 1 1).GetProbesCount = 0 ∧
    0 < exampleTwoProbes.GetProbesCount ∧
    (empty : SHProbeNetwork 1 1).GetNearestProbe (fun _ id => if id = 1 then 1 else 2)
      float3.zero = NearestProbe.noProbesAvailable ∧
    ∃ id, id < exampleTwoProbes.GetProbesCount ∧
      exampleTwoProbes.GetNearestProbe (fun _ id => if id = 1 then 1 else 2) float3.zero =
        NearestProbe.found id :=
  have h := GetNearestProbe_empty_signal_distinct (fun _ id => if id = 1 then 1 else 2)
    (empty : SHProbeNetwork 1 1) exampleTwoProbes Reachable.empty
    (Reachable.AddProbe _ 8 (Reachable.AddProbe _ 7
      (Reachable.PreAllocateProbes _ 2 Reachable.empty)))
    rfl (by decide) float3.zero float3.zero
  ⟨rfl, by decide, h.1, h.2.2.2.1⟩

/-! ## The update scheduler -/

theorem afterFrames_count {S E : Nat} (net : SHProbeNetwork S E) (Parms : DynamicUpdateParms) :
    ∀ j, (net.afterFrames Parms j).m_ProbesCount = net.m_ProbesCount
  | 0 => rfl
  | j + 1 => by
    show ((afterFrames net Parms j).UpdateDynamicProbes Parms).net.m_ProbesCount = _
    rw [← afterFrames_count net Parms j]
    unfold UpdateDynamicProbes
    split <;> rfl

theorem afterFrames_cursor {S E : Nat} (net : SHProbeNetwork S E) (Parms : DynamicUpdateParms)
    (hN : 0 < net.m_ProbesCount) :
    ∀ j, Int.ModEq (net.m_ProbesCount : Int) (net.afterFrames Parms j).m_ProbeUpdateIndex
      (net.m_ProbeUpdateIndex +
        ((j * min Parms.MaxProbeUpdatesPerFrame net.m_ProbesCount : Nat) : Int))
  | 0 => by
    show Int.ModEq _ net.m_ProbeUpdateIndex _
    simp [Int.ModEq]
  | j + 1 => by
    have hc := afterFrames_count net Parms j
    have ih := afterFrames_cursor net Parms hN j
    have hstep : (net.afterFrames Parms (j + 1)).m_ProbeUpdateIndex =
        ((net.afterFrames Parms j).m_ProbeUpdateIndex +
          ((min Parms.MaxProbeUpdatesPerFrame net.m_ProbesCount : Nat) : Int)) %
            (net.m_ProbesCount : Int) := by
      show ((afterFrames net Parms j).UpdateDynamicProbes Parms).net.m_ProbeUpdateIndex = _
      simp only [UpdateDynamicProbes, hc, if_neg (Nat.pos_iff_ne_zero.1 hN)]
    rw [hstep]
    refine (Int.mod_modEq _ _).trans ?_
    have h2 := ih.add_right ((min Parms.MaxProbeUpdatesPerFrame net.m_ProbesCount : Nat) : Int)
    have h3 : net.m_ProbeUpdateIndex +
        ((j * min Parms.MaxProbeUpdatesPerFrame net.m_ProbesCount : Nat) : Int) +
        ((min Parms.MaxProbeUpdatesPerFrame net.m_ProbesCount : Nat) : Int) =
        net.m_ProbeUpdateIndex +
        (((j + 1) * min Parms.MaxProbeUpdatesPerFrame net.m_ProbesCount : Nat) : Int) := by
      push_cast
      ring
    rw [h3] at h2
    exact h2

theorem mem_selectedInFrame {S E : Nat} (net : SHProbeNetwork S E) (Parms : DynamicUpdateParms)
    (hN : 0 < net.m_ProbesCount) (j k : Nat)
    (hk : k < min Parms.MaxProbeUpdatesPerFrame net.m_ProbesCount) :
    ((net.m_ProbeUpdateIndex +
        ((j * min Parms.MaxProbeUpdatesPerFrame net.m_ProbesCount + k : Nat) : Int)) %
      (net.m_ProbesCount : Int)).toNat ∈ net.selectedInFrame Parms j := by
  have hc := afterFrames_count net Parms j
  have hcur := afterFrames_cursor net Parms hN j
  simp only [selectedInFrame, UpdateDynamicProbes, hc, if_neg (Nat.pos_iff_ne_zero.1 hN),
    List.mem_map, List.mem_range]
  refine ⟨k, hk, ?_⟩
  have h2 : Int.ModEq (net.m_ProbesCount : Int)
      ((net.afterFrames Parms j).m_ProbeUpdateIndex + (k : Int))
      (net.m_ProbeUpdateIndex +
        ((j * min Parms.MaxProbeUpdatesPerFrame net.m_ProbesCount + k : Nat) : Int)) := by
    have h3 := hcur.add_right (k : Int)
    have h4 : net.m_ProbeUpdateIndex +
        ((j * min Parms.MaxProbeUpdatesPerFrame net.m_ProbesCount : Nat) : Int) + (k : Int) =
        net.m_ProbeUpdateIndex +
        ((j * min Parms.MaxProbeUpdatesPerFrame net.m_ProbesCount + k : Nat) : Int) := by
      push_cast
      ring
    rw [h4] at h3
    exact h3
  rw [h2]

theorem div_lt_fairnessWindow (N B t : Nat) (hN : 0 < N) (hB : 0 < B) (ht : t < N) :
    t / min B N < fairnessWindow N B := by
  unfold fairnessWindow
  by_cases h : B ≤ N
  · rw [Nat.min_eq_left h]
    have h1 : t / B ≤ (N - 1) / B := Nat.div_le_div_right (by omega)
    have h2 : (N + B - 1) / B = (N - 1) / B + 1 := by
      have : N + B - 1 = N - 1 + B := by omega
      rw [this, Nat.add_div_right _ hB]
    omega
  · rw [Nat.min_eq_right (by omega), Nat.div_eq_of_lt ht]
    exact Nat.div_pos (by omega) hB

/-- The window is the least number of frames whose budgets add up to the probe count: it is
`ceil(N / B)`. -/
theorem fairnessWindow_least (N B : Nat) (hB : 0 < B) :
    N ≤ fairnessWindow N B * B ∧ ∀ w, N ≤ w * B → fairnessWindow N B ≤ w := by
  unfold fairnessWindow
  constructor
  · have h := Nat.div_add_mod (N + B - 1) B
    have h2 := Nat.mod_lt (N + B - 1) hB
    rw [Nat.mul_comm] at h
    omega
  · intro w hw
    have h3 : N + B - 1 < (w + 1) * B := by
      rw [Nat.add_mul, Nat.one_mul]
      omega
    exact Nat.lt_succ_iff.1 ((Nat.div_lt_iff_lt_mul hB).2 h3)

/-- The scenario of the spec: with a budget of 1 and 5 probes, 5 frames update each probe
once, and the cursor wraps to probe 0 on frame 6. -/
theorem budget_one_five_probes :
    (List.range 6).map
        (exampleNetwork.selectedInFrame { exampleParms with MaxProbeUpdatesPerFrame := 1 }) =
      [[0], [1], [2], [3], [4], [0]] := by
  decide

/-- C7: scheduler fairness.  For a network of `N > 0` probes and a budget
`B = MaxProbeUpdatesPerFrame > 0`, in every window of `ceil(N / B)` consecutive frames (from any
value of the cursor `m_ProbeUpdateIndex`, with nothing but the frame updates in the window) every
probe ID in `[0, N)` is selected for update in at least one frame of the window. -/
theorem UpdateDynamicProbes_fair {S E : Nat} (net : SHProbeNetwork S E)
    (Parms : DynamicUpdateParms) (hN : 0 < net.GetProbesCount)
    (hB : 0 < Parms.MaxProbeUpdatesPerFrame) (ProbeID : Nat)
    (hid : ProbeID < net.GetProbesCount) :
    ∃ j, j < fairnessWindow net.GetProbesCount Parms.MaxProbeUpdatesPerFrame ∧
      ProbeID ∈ net.selectedInFrame Parms j := by
  unfold GetProbesCount at hN hid ⊢
  have hNz : (net.m_ProbesCount : Int) ≠ 0 := by omega
  have hm : 0 < min Parms.MaxProbeUpdatesPerFrame net.m_ProbesCount := by
    rw [Nat.lt_min]; exact ⟨hB, hN⟩
  have ht0 : 0 ≤ ((ProbeID : Int) - net.m_ProbeUpdateIndex) % (net.m_ProbesCount : Int) :=
    Int.emod_nonneg _ hNz
  have ht1 : ((ProbeID : Int) - net.m_ProbeUpdateIndex) % (net.m_ProbesCount : Int) <
      (net.m_ProbesCount : Int) := Int.emod_lt_of_pos _ (by omega)
  obtain ⟨t, ht⟩ := Int.eq_ofNat_of_zero_le ht0
  have htN : t < net.m_ProbesCount := by omega
  refine ⟨t / min Parms.MaxProbeUpdatesPerFrame net.m_ProbesCount,
    div_lt_fairnessWindow _ _ t hN hB htN, ?_⟩
  have hmem := mem_selectedInFrame net Parms hN
    (t / min Parms.MaxProbeUpdatesPerFrame net.m_ProbesCount)
    (t % min Parms.MaxProbeUpdatesPerFrame net.m_ProbesCount) (Nat.mod_lt _ hm)
  rw [Nat.div_add_mod' t (min Parms.MaxProbeUpdatesPerFrame net.m_ProbesCount)] at hmem
  have hval : ((net.m_ProbeUpdateIndex + (t : Int)) % (net.m_ProbesCount : Int)).toNat =
      ProbeID := by
    rw [← ht, Int.add_emod_emod, add_sub_cancel, Int.emod_eq_of_lt (by omega) (by omega)]
    rfl
  rw [hval] at hmem
  exact hmem

/-- The statement of C7 at a network of 5 probes, a budget of 2 probes per frame and probe 4:
the window is 3 frames long. -/
theorem UpdateDynamicProbes_fair_witness :
    0 < exampleNetwork.GetProbesCount ∧ 0 < exampleBudget.MaxProbeUpdatesPerFrame ∧
    4 < exampleNetwork.GetProbesCount ∧
    ∃ j, j < fairnessWindow exampleNetwork.GetProbesCount exampleBudget.MaxProbeUpdatesPerFrame ∧
      4 ∈ exampleNetwork.selectedInFrame exampleBudget j :=
  ⟨by decide, by decide, by decide,
    UpdateDynamicProbes_fair exampleNetwork exampleBudget (by decide) (by decide) 4 (by decide)⟩

/-! ## The propagation of probe influences -/

theorem RecursePropagateProbeInfluences_nil (distance : float3 → Nat → ℚ) (PassIndex : Nat)
    (candidate : ProbeInfluence) (faces : List Face) (modified : Bool) :
    Face.RecursePropagateProbeInfluences distance PassIndex candidate faces [] modified =
      (faces, modified) := by
  rw [Face.RecursePropagateProbeInfluences]

/-- One step of the recursion, on the first of the calls still to make. -/
theorem RecursePropagateProbeInfluences_cons (distance : float3 → Nat → ℚ) (PassIndex : Nat)
    (candidate : ProbeInfluence) (faces : List Face) (FaceIndex : Nat) (rest : List Nat)
    (modified : Bool) :
    Face.RecursePropagateProbeInfluences distance PassIndex candidate faces (FaceIndex :: rest)
        modified =
      match faces[FaceIndex]? with
      | none =>
        Face.RecursePropagateProbeInfluences distance PassIndex candidate faces rest modified
      | some f =>
        if f.LastVisitIndex < PassIndex then
          if f.Accepts distance candidate then
            Face.RecursePropagateProbeInfluences distance PassIndex candidate
              (faces.set FaceIndex
                { f with LastVisitIndex := PassIndex, pProbeInfluence := some candidate })
              (f.adjacentFaces ++ rest) true
          else
            Face.RecursePropagateProbeInfluences distance PassIndex candidate
              (faces.set FaceIndex { f with LastVisitIndex := PassIndex }) rest modified
        else
          Face.RecursePropagateProbeInfluences distance PassIndex candidate faces rest
            modified := by
  rw [Face.RecursePropagateProbeInfluences]
  split
  · rename_i h
    rw [h]
  · rename_i f h
    rw [h]
    simp only [dite_eq_ite]

/-- The scenario of the spec: on the quad of two faces with one probe, a single pass assigns both
faces to the same probe, and reports a change. -/
theorem quad_single_pass :
    ((exampleQuad.PropagateProbeInfluences (fun _ _ => 1) 1).1.m_pFaces.map
      fun f => f.pProbeInfluence.map fun p => p.ProbeID) = [some 0, some 0] ∧
    (exampleQuad.PropagateProbeInfluences (fun _ _ => 1) 1).2 = true := by
  simp [Primitive.PropagateProbeInfluences, propagateFromFace, exampleQuad, List.range,
    List.range.loop, RecursePropagateProbeInfluences_cons, RecursePropagateProbeInfluences_nil,
    Face.adjacentFaces, Face.Accepts]

theorem Keeps_refl (faces : List Face) : Keeps faces faces :=
  ⟨rfl, fun _ f h => ⟨f, h, rfl, id⟩⟩

theorem Keeps_trans {a b c : List Face} (hab : Keeps a b) (hbc : Keeps b c) : Keeps a c := by
  refine ⟨hbc.1.trans hab.1, fun i f hf => ?_⟩
  obtain ⟨g, hg, hadj, hown⟩ := hab.2 i f hf
  obtain ⟨k, hk, hadj2, hown2⟩ := hbc.2 i g hg
  exact ⟨k, hk, hadj2.trans hadj, fun h => hown2 (hown h)⟩

theorem Keeps_set (faces : List Face) (i : Nat) (f g : Face) (hf : faces[i]? = some f)
    (hadj : g.pAdjacent = f.pAdjacent)
    (hown : f.pProbeInfluence ≠ none → g.pProbeInfluence ≠ none) :
    Keeps faces (faces.set i g) := by
  obtain ⟨hlt, _⟩ := List.getElem?_eq_some_iff.1 hf
  refine ⟨List.length_set _ _ _, fun j k hk => ?_⟩
  by_cases hji : i = j
  · subst hji
    rw [hf] at hk
    cases hk
    exact ⟨g, List.getElem?_set_self hlt, hadj, hown⟩
  · exact ⟨k, by rw [List.getElem?_set_ne hji]; exact hk, rfl, id⟩

theorem Keeps_Owned {faces result : List Face} (h : Keeps faces result) (i : Nat)
    (ho : Owned faces i) : Owned result i := by
  obtain ⟨f, hf, hne⟩ := ho
  obtain ⟨g, hg, _, hown⟩ := h.2 i f hf
  exact ⟨g, hg, hown hne⟩

theorem Keeps_AdjacentTo {faces result : List Face} (h : Keeps faces result) (i a : Nat)
    (ha : AdjacentTo faces i a) : AdjacentTo result i a := by
  obtain ⟨f, hf, hmem⟩ := ha
  obtain ⟨g, hg, hadj, _⟩ := h.2 i f hf
  exact ⟨g, hg, by simpa only [Face.adjacentFaces, hadj] using hmem⟩

/-- The recursion keeps the faces, their adjacency pointers and the influences already owned. -/
theorem RecursePropagateProbeInfluences_Keeps (distance : float3 → Nat → ℚ) (PassIndex : Nat)
    (candidate : ProbeInfluence) (faces : List Face) (pending : List Nat) (modified : Bool) :
    Keeps faces (Face.RecursePropagateProbeInfluences distance PassIndex candidate faces pending
      modified).1 := by
  induction faces, pending, modified using
    Face.RecursePropagateProbeInfluences.induct distance PassIndex candidate with
  | case1 faces modified =>
    rw [RecursePropagateProbeInfluences_nil]
    exact Keeps_refl faces
  | case2 faces modified i rest hnone ih =>
    rw [RecursePropagateProbeInfluences_cons, hnone]
    exact ih
  | case3 faces modified i rest f hf hv hacc ih =>
    rw [RecursePropagateProbeInfluences_cons, hf]
    simp only [if_pos hv, if_pos hacc]
    refine Keeps_trans ?_ ih
    exact Keeps_set faces i f _ hf rfl (fun _ => Option.some_ne_none _)
  | case4 faces modified i rest f hf hv hacc ih =>
    rw [RecursePropagateProbeInfluences_cons, hf]
    simp only [if_pos hv, if_neg hacc]
    refine Keeps_trans ?_ ih
    exact Keeps_set faces i f _ hf rfl id
  | case5 faces modified i rest f hf hv ih =>
    rw [RecursePropagateProbeInfluences_cons, hf]
    simp only [if_neg hv]
    exact ih

theorem Owned_set_ne (faces : List Face) (i j : Nat) (g : Face) (h : i ≠ j) :
    Owned (faces.set i g) j ↔ Owned faces j := by
  unfold Owned
  rw [List.getElem?_set_ne h]

theorem AdjacentTo_set_ne (faces : List Face) (i j a : Nat) (g : Face) (h : i ≠ j) :
    AdjacentTo (faces.set i g) j a ↔ AdjacentTo faces j a := by
  unfold AdjacentTo
  rw [List.getElem?_set_ne h]

theorem Owned_set_self (faces : List Face) (i : Nat) (f g : Face) (hf : faces[i]? = some f)
    (hg : g.pProbeInfluence ≠ none) : Owned (faces.set i g) i :=
  ⟨g, List.getElem?_set_self (List.getElem?_eq_some_iff.1 hf).1, hg⟩

theorem VisitedOwned_set (PassIndex : Nat) (faces : List Face) (i : Nat) (f g : Face)
    (hf : faces[i]? = some f) (hg : g.pProbeInfluence ≠ none)
    (h : VisitedOwned PassIndex faces) : VisitedOwned PassIndex (faces.set i g) := by
  intro j k hk hle
  by_cases hji : i = j
  · subst hji
    rw [List.getElem?_set_self (List.getElem?_eq_some_iff.1 hf).1] at hk
    cases hk
    exact hg
  · rw [List.getElem?_set_ne hji] at hk
    exact h j k hk hle

theorem owner_of_not_Accepts (distance : float3 → Nat → ℚ) (f : Face)
    (candidate : ProbeInfluence) (h : ¬ f.Accepts distance candidate = true) :
    f.pProbeInfluence ≠ none := by
  intro hnone
  apply h
  unfold Face.Accepts
  rw [hnone]

/-- The flood fill of one recursion.  When every face that carries the visit marker of the pass
owns an influence, this still holds after the recursion; every face the recursion was called on
owns an influence afterwards; and so does every face adjacent to a face that took its first
influence during the recursion. -/
theorem RecursePropagateProbeInfluences_flood (distance : float3 → Nat → ℚ) (PassIndex : Nat)
    (candidate : ProbeInfluence) (faces : List Face) (pending : List Nat) (modified : Bool) :
    VisitedOwned PassIndex faces →
    VisitedOwned PassIndex
      (Face.RecursePropagateProbeInfluences distance PassIndex candidate faces pending
        modified).1 ∧
    (∀ j ∈ pending, j < faces.length →
      Owned (Face.RecursePropagateProbeInfluences distance PassIndex candidate faces pending
        modified).1 j) ∧
    (∀ i, ¬ Owned faces i →
      Owned (Face.RecursePropagateProbeInfluences distance PassIndex candidate faces pending
        modified).1 i →
      ∀ a, AdjacentTo faces i a → a < faces.length →
        Owned (Face.RecursePropagateProbeInfluences distance PassIndex candidate faces pending
          modified).1 a) := by
  induction faces, pending, modified using
    Face.RecursePropagateProbeInfluences.induct distance PassIndex candidate with
  | case1 faces modified =>
    intro hmark
    rw [RecursePropagateProbeInfluences_nil]
    exact ⟨hmark, fun j hj => absurd hj (List.not_mem_nil j), fun i hn ho => absurd ho hn⟩
  | case2 faces modified i rest hnone ih =>
    intro hmark
    rw [RecursePropagateProbeInfluences_cons, hnone]
    obtain ⟨h1, h2, h3⟩ := ih hmark
    refine ⟨h1, fun j hj hlt => ?_, h3⟩
    rcases List.mem_cons.1 hj with hji | hjr
    · subst hji
      have := List.getElem?_eq_none_iff.1 hnone
      omega
    · exact h2 j hjr hlt
  | case3 faces modified i rest f hf hv hacc ih =>
    intro hmark
    have hkeep := RecursePropagateProbeInfluences_Keeps distance PassIndex candidate
      (faces.set i { f with LastVisitIndex := PassIndex, pProbeInfluence := some candidate })
      (f.adjacentFaces ++ rest) true
    rw [RecursePropagateProbeInfluences_cons, hf]
    simp only [if_pos hv, if_pos hacc]
    obtain ⟨h1, h2, h3⟩ := ih (VisitedOwned_set PassIndex faces i f _ hf
      (Option.some_ne_none candidate) hmark)
    simp only [List.length_set] at h2 h3
    refine ⟨h1, fun j hj hlt => ?_, fun j hn ho a ha hlt => ?_⟩
    · rcases List.mem_cons.1 hj with hji | hjr
      · subst hji
        exact Keeps_Owned hkeep j
          (Owned_set_self faces j f _ hf (Option.some_ne_none candidate))
      · exact h2 j (List.mem_append_right _ hjr) hlt
    · by_cases hji : i = j
      · subst hji
        obtain ⟨f2, hf2, hmem⟩ := ha
        rw [hf] at hf2
        cases hf2
        exact h2 a (List.mem_append_left _ hmem) hlt
      · exact h3 j (fun h => hn ((Owned_set_ne faces i j _ hji).1 h)) ho a
          ((AdjacentTo_set_ne faces i j a _ hji).2 ha) hlt
  | case4 faces modified i rest f hf hv hacc ih =>
    intro hmark
    have hown := owner_of_not_Accepts distance f candidate hacc
    have hkeep := RecursePropagateProbeInfluences_Keeps distance PassIndex candidate
      (faces.set i { f with LastVisitIndex := PassIndex }) rest modified
    rw [RecursePropagateProbeInfluences_cons, hf]
    simp only [if_pos hv, if_neg hacc]
    obtain ⟨h1, h2, h3⟩ := ih (VisitedOwned_set PassIndex faces i f _ hf hown hmark)
    simp only [List.length_set] at h2 h3
    refine ⟨h1, fun j hj hlt => ?_, fun j hn ho a ha hlt => ?_⟩
    · rcases List.mem_cons.1 hj with hji | hjr
      · subst hji
        exact Keeps_Owned hkeep j (Owned_set_self faces j f _ hf hown)
      · exact h2 j hjr hlt
    · by_cases hji : i = j
      · subst hji
        exact absurd ⟨f, hf, hown⟩ hn
      · exact h3 j (fun h => hn ((Owned_set_ne faces i j _ hji).1 h)) ho a
          ((AdjacentTo_set_ne faces i j a _ hji).2 ha) hlt
  | case5 faces modified i rest f hf hv ih =>
    intro hmark
    have hown := hmark i f hf (Nat.le_of_not_lt hv)
    have hkeep := RecursePropagateProbeInfluences_Keeps distance PassIndex candidate
      faces rest modified
    rw [RecursePropagateProbeInfluences_cons, hf]
    simp only [if_neg hv]
    obtain ⟨h1, h2, h3⟩ := ih hmark
    refine ⟨h1, fun j hj hlt => ?_, h3⟩
    rcases List.mem_cons.1 hj with hji | hjr
    · subst hji
      exact Keeps_Owned hkeep j ⟨f, hf, hown⟩
    · exact h2 j hjr hlt

theorem propagateFromFace_Keeps (distance : float3 → Nat → ℚ) (PassIndex : Nat)
    (st : List Face × Bool) (s : Nat) :
    Keeps st.1 (propagateFromFace distance PassIndex st s).1 := by
  unfold propagateFromFace
  split
  · exact Keeps_refl _
  · split
    · exact Keeps_refl _
    · exact RecursePropagateProbeInfluences_Keeps _ _ _ _ _ _

theorem propagateFromFace_flood (distance : float3 → Nat → ℚ) (PassIndex : Nat)
    (st : List Face × Bool) (s : Nat) (hmark : VisitedOwned PassIndex st.1) :
    VisitedOwned PassIndex (propagateFromFace distance PassIndex st s).1 ∧
    (Owned st.1 s → ∀ a, AdjacentTo st.1 s a → a < st.1.length →
      Owned (propagateFromFace distance PassIndex st s).1 a) ∧
    (∀ i, ¬ Owned st.1 i → Owned (propagateFromFace distance PassIndex st s).1 i →
      ∀ a, AdjacentTo st.1 i a → a < st.1.length →
        Owned (propagateFromFace distance PassIndex st s).1 a) := by
  cases hs : st.1[s]? with
  | none =>
    simp only [propagateFromFace, hs]
    refine ⟨hmark, fun ho => ?_, fun i hn ho => absurd ho hn⟩
    obtain ⟨f, hf, _⟩ := ho
    rw [hs] at hf
    cases hf
  | some f =>
    cases hinf : f.pProbeInfluence with
    | none =>
      simp only [propagateFromFace, hs, hinf]
      refine ⟨hmark, fun ho => ?_, fun i hn ho => absurd ho hn⟩
      obtain ⟨g, hg, hne⟩ := ho
      rw [hs] at hg
      cases hg
      exact absurd hinf hne
    | some influence =>
      simp only [propagateFromFace, hs, hinf]
      obtain ⟨h1, h2, h3⟩ := RecursePropagateProbeInfluences_flood distance PassIndex
        influence st.1 f.adjacentFaces st.2 hmark
      refine ⟨h1, fun _ a ha hlt => ?_, h3⟩
      obtain ⟨g, hg, hmem⟩ := ha
      rw [hs] at hg
      cases hg
      exact h2 a hmem hlt

theorem FloodInvariant_mono (PassIndex : Nat) (initial faces : List Face)
    (processed processed2 : Nat → Prop) (h : ∀ i, processed2 i → processed i)
    (hinv : FloodInvariant PassIndex initial processed faces) :
    FloodInvariant PassIndex initial processed2 faces :=
  ⟨hinv.1, hinv.2.1, fun i ho hp a ha hlt =>
    hinv.2.2 i ho (hp.elim (fun h2 => Or.inl (h i h2)) Or.inr) a ha hlt⟩

theorem propagateFromFace_invariant (distance : float3 → Nat → ℚ) (PassIndex : Nat)
    (initial : List Face) (processed : Nat → Prop) (st : List Face × Bool) (s : Nat)
    (hinv : FloodInvariant PassIndex initial processed st.1) :
    FloodInvariant PassIndex initial (fun i => processed i ∨ i = s)
      (propagateFromFace distance PassIndex st s).1 := by
  obtain ⟨hkeep, hmark, hclosed⟩ := hinv
  have hstep := propagateFromFace_Keeps distance PassIndex st s
  obtain ⟨h1, h2, h3⟩ := propagateFromFace_flood distance PassIndex st s hmark
  refine ⟨Keeps_trans hkeep hstep, h1, fun i ho hp a ha hlt => ?_⟩
  have hlt2 : a < st.1.length := by rw [hkeep.1]; exact hlt
  have ha2 : AdjacentTo st.1 i a := Keeps_AdjacentTo hkeep i a ha
  by_cases hbefore : Owned st.1 i
  · rcases hp with (hproc | his) | hnew
    · exact Keeps_Owned hstep a (hclosed i hbefore (Or.inl hproc) a ha hlt)
    · subst his
      exact h2 hbefore a ha2 hlt2
    · exact Keeps_Owned hstep a (hclosed i hbefore (Or.inr hnew) a ha hlt)
  · exact h3 i hbefore ho a ha2 hlt2

theorem foldl_propagateFromFace_invariant (distance : float3 → Nat → ℚ) (PassIndex : Nat)
    (initial : List Face) (l : List Nat) :
    ∀ (st : List Face × Bool) (processed : Nat → Prop),
      FloodInvariant PassIndex initial processed st.1 →
      FloodInvariant PassIndex initial (fun i => processed i ∨ i ∈ l)
        (l.foldl (propagateFromFace distance PassIndex) st).1 := by
  induction l with
  | nil =>
    intro st processed hinv
    exact FloodInvariant_mono PassIndex initial st.1 processed _
      (fun i h => h.elim id (fun hm => absurd hm (List.not_mem_nil i))) hinv
  | cons s rest ih =>
    intro st processed hinv
    rw [List.foldl_cons]
    refine FloodInvariant_mono PassIndex initial _ _ _ (fun i h => ?_)
      (ih _ _ (propagateFromFace_invariant distance PassIndex initial processed st s hinv))
    rcases h with h | h
    · exact Or.inl (Or.inl h)
    · rcases List.mem_cons.1 h with h | h
      · exact Or.inl (Or.inr h)
      · exact Or.inr h

theorem foldl_propagateFromFace_Keeps (distance : float3 → Nat → ℚ) (PassIndex : Nat)
    (l : List Nat) :
    ∀ st : List Face × Bool,
      Keeps st.1 (l.foldl (propagateFromFace distance PassIndex) st).1 := by
  induction l with
  | nil => intro st; exact Keeps_refl _
  | cons s rest ih =>
    intro st
    rw [List.foldl_cons]
    exact Keeps_trans (propagateFromFace_Keeps distance PassIndex st s) (ih _)

/-- A pass keeps the faces, their adjacency pointers and the influences already owned. -/
theorem PropagateProbeInfluences_Keeps (distance : float3 → Nat → ℚ) (PassIndex : Nat)
    (prim : Primitive) :
    Keeps prim.m_pFaces (prim.PropagateProbeInfluences distance PassIndex).1.m_pFaces :=
  foldl_propagateFromFace_Keeps distance PassIndex _ (prim.m_pFaces, false)

theorem PropagationPasses_Keeps (distance : float3 → Nat → ℚ) (passes : List Nat) :
    ∀ prim : Primitive, Keeps prim.m_pFaces (prim.PropagationPasses distance passes).m_pFaces := by
  induction passes with
  | nil => intro prim; exact Keeps_refl _
  | cons PassIndex rest ih =>
    intro prim
    rw [Primitive.PropagationPasses]
    exact Keeps_trans (PropagateProbeInfluences_Keeps distance PassIndex prim) (ih _)

/-- The flood fill of one pass.  When the pass index is above the visit marker of every face,
the faces that own an influence after the pass are closed under adjacency: every face adjacent to
an owner is an owner. -/
theorem PropagateProbeInfluences_closed (distance : float3 → Nat → ℚ) (PassIndex : Nat)
    (prim : Primitive) (hfresh : ∀ f ∈ prim.m_pFaces, f.LastVisitIndex < PassIndex) (i a : Nat)
    (ho : Owned (prim.PropagateProbeInfluences distance PassIndex).1.m_pFaces i)
    (ha : AdjacentTo prim.m_pFaces i a) (hlt : a < prim.m_pFaces.length) :
    Owned (prim.PropagateProbeInfluences distance PassIndex).1.m_pFaces a := by
  have hinit : FloodInvariant PassIndex prim.m_pFaces (fun _ => False)
      (prim.m_pFaces, false).1 := by
    refine ⟨Keeps_refl _, fun j f hf hle => ?_, fun j hj hp => ?_⟩
    · have := hfresh f (List.getElem?_mem hf)
      omega
    · rcases hp with hp | hp
      · exact absurd hp id
      · exact absurd hj hp
  have hend := foldl_propagateFromFace_invariant distance PassIndex prim.m_pFaces
    (List.range prim.m_pFaces.length) (prim.m_pFaces, false) (fun _ => False) hinit
  refine hend.2.2 i ho (Or.inl (Or.inr ?_)) a ha hlt
  obtain ⟨f, hf, _⟩ := ho
  have hi := (List.getElem?_eq_some_iff.1 hf).1
  have hlen := (PropagateProbeInfluences_Keeps distance PassIndex prim).1
  exact List.mem_range.2 (by rw [← hlen]; exact hi)

theorem mem_edgeUsesFrom (key : EdgeKey) (l : List Face) :
    ∀ (k : Nat) (u : Nat × Fin 3), u ∈ edgeUsesFrom key k l → k ≤ u.1 ∧ u.1 < k + l.length := by
  induction l with
  | nil =>
    intro k u hu
    exact absurd hu (List.not_mem_nil u)
  | cons f rest ih =>
    intro k u hu
    simp only [edgeUsesFrom, List.mem_append, List.mem_map] at hu
    rcases hu with ⟨e, _, he⟩ | hu
    · rw [← he, List.length_cons]
      exact ⟨Nat.le_refl k, by omega⟩
    · have := ih (k + 1) u hu
      rw [List.length_cons]
      omega

theorem manifoldFrom_getElem (prim : Primitive) (l : List Face) :
    ∀ (k idx : Nat) (f : Face), manifoldFrom prim k l = true → l[idx]? = some f →
      ∀ e : Fin 3, prim.manifoldAt (k + idx) f e = true := by
  induction l with
  | nil =>
    intro k idx f _ hf
    simp at hf
  | cons g rest ih =>
    intro k idx f hm hf e
    simp only [manifoldFrom, Bool.and_eq_true, List.all_eq_true] at hm
    cases idx with
    | zero =>
      simp only [List.getElem?_cons_zero, Option.some.injEq] at hf
      subst hf
      exact hm.1 e (by fin_cases e <;> simp)
    | succ n =>
      simp only [List.getElem?_cons_succ] at hf
      have := ih (k + 1) n f hm.2 hf e
      rw [Nat.add_assoc, Nat.add_comm 1 n] at this
      exact this

/-- In a manifold primitive every adjacency pointer that is not null names a face of the
primitive. -/
theorem Manifold_adjacent_lt (prim : Primitive) (hm : prim.Manifold) (i a : Nat)
    (ha : AdjacentTo prim.m_pFaces i a) : a < prim.m_pFaces.length := by
  obtain ⟨f, hf, hmem⟩ := ha
  simp only [Face.adjacentFaces, List.mem_filterMap] at hmem
  obtain ⟨e, _, he⟩ := hmem
  have hat := manifoldFrom_getElem prim prim.m_pFaces 0 i f hm hf e
  simp only [Primitive.manifoldAt, he, Bool.and_eq_true, List.any_eq_true, beq_iff_eq] at hat
  obtain ⟨u, hu, hua⟩ := hat.2
  have := mem_edgeUsesFrom (f.edgeKey e) prim.m_pFaces 0 u hu
  omega

/-- The flood fill of a pass whose index is above every visit marker, on a manifold primitive:
every face connected to a face that owned an influence before the pass owns one after it. -/
theorem PropagateProbeInfluences_reaches (distance : float3 → Nat → ℚ) (PassIndex : Nat)
    (prim : Primitive) (hm : prim.Manifold)
    (hfresh : ∀ f ∈ prim.m_pFaces, f.LastVisitIndex < PassIndex) (seed target : Nat)
    (hseed : Owned prim.m_pFaces seed) (hconn : Connected prim.m_pFaces seed target) :
    Owned (prim.PropagateProbeInfluences distance PassIndex).1.m_pFaces target := by
  induction hconn with
  | refl => exact Keeps_Owned (PropagateProbeInfluences_Keeps distance PassIndex prim) seed hseed
  | tail _ hstep ih =>
    exact PropagateProbeInfluences_closed distance PassIndex prim hfresh _ _ ih hstep
      (Manifold_adjacent_lt prim hm _ _ hstep)

/-- With at least one probe, `AssignNearestProbe` leaves no face of a primitive without a probe
influence, and it leaves every face that owns an influence as it is. -/
theorem AssignNearestProbe_assigns (distance : float3 → Nat → ℚ) (weight : ℚ → double)
    (ProbesCount : Nat) (hp : 0 < ProbesCount) (prim : Primitive) :
    (prim.AssignNearestProbe distance weight ProbesCount).m_pFaces.length =
      prim.m_pFaces.length ∧
    (∀ f ∈ (prim.AssignNearestProbe distance weight ProbesCount).m_pFaces,
      ∃ influence, f.pProbeInfluence = some influence) ∧
    (∀ (j : Nat) (f : Face), prim.m_pFaces[j]? = some f → f.pProbeInfluence ≠ none →
      (prim.AssignNearestProbe distance weight ProbesCount).m_pFaces[j]? = some f) := by
  refine ⟨by simp [Primitive.AssignNearestProbe], ?_, ?_⟩
  · intro f hf
    simp only [Primitive.AssignNearestProbe, List.mem_map] at hf
    obtain ⟨g, _, hg⟩ := hf
    cases hinf : g.pProbeInfluence with
    | some influence =>
      simp only [hinf] at hg
      exact ⟨influence, by rw [← hg, hinf]⟩
    | none =>
      have hrange : List.range ProbesCount = 0 :: (List.range ProbesCount).tail := by
        obtain ⟨k, hk⟩ := Nat.exists_eq_succ_of_ne_zero (Nat.pos_iff_ne_zero.1 hp)
        rw [hk, List.range_succ_eq_map]
        rfl
      obtain ⟨b, hb, _, _⟩ := nearestLoop_cons distance g.P 0 (List.range ProbesCount).tail
      rw [← hrange] at hb
      simp only [hinf, hb] at hg
      exact ⟨_, by rw [← hg]⟩
  · intro j f hf hne
    obtain ⟨influence, hinf⟩ := Option.ne_none_iff_exists'.1 hne
    simp only [Primitive.AssignNearestProbe, List.getElem?_map, hf, Option.map_some', hinf]

/-- C6: for every primitive with manifold topology and every probe set that is not empty, after
the propagation passes (`PropagateProbeInfluences` driving `RecursePropagateProbeInfluences`, once
per pass index, at least once) followed by `AssignNearestProbe`, the primitive has the faces it
had and every one of them has exactly one probe influence assigned: no face is left with a null
`pProbeInfluence`.  The flood fill does its part: when the first pass index is above every visit
marker, every face connected to a face that owned an influence owns one after the passes, before
the fallback; and the fallback leaves the faces that own an influence as they are. -/
theorem propagation_assigns_every_face (distance : float3 → Nat → ℚ) (weight : ℚ → double)
    (prim : Primitive) (hm : prim.Manifold) (ProbesCount : Nat) (hp : 0 < ProbesCount)
    (PassIndex : Nat) (morePasses : List Nat) :
    ((prim.PropagationPasses distance (PassIndex :: morePasses)).AssignNearestProbe distance
      weight ProbesCount).m_FacesCount = prim.m_FacesCount ∧
    (∀ f ∈ ((prim.PropagationPasses distance (PassIndex :: morePasses)).AssignNearestProbe
        distance weight ProbesCount).m_pFaces,
      f.pProbeInfluence ≠ none ∧ ∃! influence, f.pProbeInfluence = some influence) ∧
    ((∀ f ∈ prim.m_pFaces, f.LastVisitIndex < PassIndex) →
      ∀ seed target : Nat, Owned prim.m_pFaces seed → Connected prim.m_pFaces seed target →
        Owned (prim.PropagationPasses distance (PassIndex :: morePasses)).m_pFaces target) ∧
    (∀ (j : Nat) (f : Face),
      (prim.PropagationPasses distance (PassIndex :: morePasses)).m_pFaces[j]? = some f →
      f.pProbeInfluence ≠ none →
      ((prim.PropagationPasses distance (PassIndex :: morePasses)).AssignNearestProbe distance
        weight ProbesCount).m_pFaces[j]? = some f) := by
  have h := AssignNearestProbe_assigns distance weight ProbesCount hp
    (prim.PropagationPasses distance (PassIndex :: morePasses))
  refine ⟨?_, fun f hf => ?_, fun hfresh seed target hseed hconn => ?_, h.2.2⟩
  · unfold Primitive.m_FacesCount
    rw [h.1, (PropagationPasses_Keeps distance (PassIndex :: morePasses) prim).1]
  · obtain ⟨influence, hinf⟩ := h.2.1 f hf
    refine ⟨by rw [hinf]; exact Option.some_ne_none _, influence, hinf, fun other ho => ?_⟩
    rw [hinf] at ho
    exact (Option.some.inj ho).symm
  · rw [Primitive.PropagationPasses]
    exact Keeps_Owned (PropagationPasses_Keeps distance morePasses _) target
      (PropagateProbeInfluences_reaches distance PassIndex prim hm hfresh seed target hseed
        hconn)

/-- The statement of C6 at the quad of two faces, one probe and one pass of index 1: the flood
fill from the marked face 0 reaches face 1, and no face is left null. -/
theorem propagation_assigns_every_face_witness :
    exampleQuad.Manifold ∧ 0 < 1 ∧
    (∀ f ∈ exampleQuad.m_pFaces, f.LastVisitIndex < 1) ∧
    Owned exampleQuad.m_pFaces 0 ∧ Connected exampleQuad.m_pFaces 0 1 ∧
    Owned (exampleQuad.PropagationPasses (fun _ _ => 1) [1]).m_pFaces 1 ∧
    ∀ f ∈ ((exampleQuad.PropagationPasses (fun _ _ => 1) [1]).AssignNearestProbe
      (fun _ _ => 1) (fun _ => ⟨0⟩) 1).m_pFaces,
      f.pProbeInfluence ≠ none ∧ ∃! influence, f.pProbeInfluence = some influence :=
  have hm : exampleQuad.Manifold := by
    show manifoldFrom exampleQuad 0 exampleQuad.m_pFaces = true
    decide
  have hfresh : ∀ f ∈ exampleQuad.m_pFaces, f.LastVisitIndex < 1 := by
    simp [exampleQuad]
  have hseed : Owned exampleQuad.m_pFaces 0 := ⟨_, rfl, Option.some_ne_none _⟩
  have hconn : Connected exampleQuad.m_pFaces 0 1 :=
    Relation.ReflTransGen.single ⟨_, rfl, by decide⟩
  have h := propagation_assigns_every_face (fun _ _ => 1) (fun _ => ⟨0⟩) exampleQuad hm 1
    Nat.one_pos 1 []
  ⟨hm, Nat.one_pos, hfresh, hseed, hconn, h.2.2.1 hfresh 0 1 hseed hconn, h.2.1⟩

end SHProbeNetwork
